import Mathlib

/-!
Commission propagation engine — verification development.

Shallow embedding of the commission-flow payout engine of the
`new-launch-sandbox` repository, together with theorems checking the
natural-language specification against the code.

Two engine variants exist in the source and are embedded separately:

* the free-form node/edge variant `calculateNodeAmounts` / `compute` from
  `src/components/flowchart-canvas.tsx` (duplicated in `src/unnamed/part_004`),
  embedded in namespace `Canvas`;
* the static-template variant `nodeAmounts` / `compute` / `getDisplayAmount` /
  `handleSubmitProjectLeadsModal` / `handleDragEnd` from
  `src/unnamed/part_005` and `src/components/commission-flow-diagram.tsx`,
  embedded in namespace `Tree`.

JavaScript numbers are modelled as rationals (`ℚ`); `Math.round(x*100)/100`
is modelled as `round2` below (`Math.round y = ⌊y + 1/2⌋` over the reals).
JavaScript `Record<string, T>` objects are modelled as association lists with
prepend-on-write (so `List.lookup` sees the most recent write, matching
last-write-wins object assignment); `undefined` is modelled with `Option`.
-/

/-- Model of `Math.round(q * 100) / 100`: round to 2 decimal places, halves away
from negative infinity, exactly as JavaScript's `Math.round`. -/
def round2 (q : ℚ) : ℚ := (⌊q * 100 + 1/2⌋ : ℚ) / 100

/-- Evaluation helper for `round2` at concrete rationals. -/
lemma round2_eval (q r : ℚ) (n : ℤ) (h1 : (n:ℚ) ≤ q * 100 + 1/2)
    (h2 : q * 100 + 1/2 < (n:ℚ) + 1) (h3 : (n:ℚ) / 100 = r) : round2 q = r := by
  rw [round2, ← h3]
  congr 1
  norm_cast
  rw [Int.floor_eq_iff]
  exact ⟨h1, by exact_mod_cast h2⟩

/-- The memoization object `amounts : Record<string, number>`, as an
association list updated by prepending (`List.lookup` finds the newest entry,
matching JavaScript object assignment). -/
abbrev Memo := List (String × ℚ)

namespace Canvas

/-- The `AmountType` union type of `flowchart-canvas.tsx`:
`"percent" | "fixed" | "formula"`. -/
inductive AmountType where
  | percent
  | fixed
  | formula
deriving DecidableEq, Repr

/-- The `FlowchartNode` record of `flowchart-canvas.tsx`, restricted to the
fields the amount engine reads.  Display-only fields (`label`, `description`,
`x`, `y`, `width`, `height`, `category`, `calculatedAmount`) carry no
computational meaning and are omitted. -/
structure FNode where
  id : String
  amountType : AmountType
  amountValue : ℚ
  percentValues : Option (List ℚ) := none
  fixedValues : Option (List ℚ) := none
  percentValue : Option ℚ := none
  fixedValue : Option ℚ := none
  usePercent : Bool
  useFixed : Bool
  formula : Option String := none
  parentId : Option String
deriving DecidableEq, Repr

/-- Embeds `array.reduce((sum, val) => sum + val, 0)`. -/
def sumList (l : List ℚ) : ℚ := l.foldl (· + ·) 0

/-- Embeds `nodeList.find((n) => n.id === nodeId)`. -/
def findNode (nodeList : List FNode) (nodeId : String) : Option FNode :=
  nodeList.find? (fun n => n.id == nodeId)

/-- JS truthiness of `node.percentValues && node.percentValues.length > 0`
(an array is truthy even when empty, so only the length matters). -/
def percentValuesNonempty (node : FNode) : Bool :=
  match node.percentValues with
  | some l => decide (l ≠ [])
  | none => false

/-- JS truthiness of `node.fixedValues && node.fixedValues.length > 0`. -/
def fixedValuesNonempty (node : FNode) : Bool :=
  match node.fixedValues with
  | some l => decide (l ≠ [])
  | none => false

/-- JS truthiness of `node.formula` (a string is truthy iff nonempty). -/
def truthyStr : Option String → Bool
  | none => false
  | some s => decide (s ≠ "")

/-- The `percentTotal` computation of `compute` (flowchart-canvas.tsx lines
162–172): sum of `percentValues` when present and nonempty, else the legacy
single `percentValue`, else 0; all only when `usePercent`. -/
def percentTotal (node : FNode) : ℚ :=
  if node.usePercent then
    if percentValuesNonempty node then sumList (node.percentValues.getD [])
    else node.percentValue.getD 0
  else 0

/-- The `fixedTotal` computation of `compute` (flowchart-canvas.tsx lines
174–184). -/
def fixedTotal (node : FNode) : ℚ :=
  if node.useFixed then
    if fixedValuesNonempty node then sumList (node.fixedValues.getD [])
    else node.fixedValue.getD 0
  else 0

/-- The `calculated` if-chain of `compute` (flowchart-canvas.tsx lines
186–204), as a function of the node and the parent's resolved amount. -/
def calcShare (node : FNode) (parentAmount : ℚ) : ℚ :=
  if node.usePercent ∧ node.useFixed then
    parentAmount * percentTotal node / 100 + fixedTotal node
  else if node.usePercent ∧ 0 < percentTotal node then
    parentAmount * percentTotal node / 100
  else if node.useFixed ∧ 0 < fixedTotal node then
    fixedTotal node
  else if node.amountType = AmountType.percent then
    parentAmount * node.amountValue / 100
  else if node.amountType = AmountType.fixed then
    node.amountValue
  else if node.amountType = AmountType.formula ∧ truthyStr node.formula then
    node.amountValue
  else 0

/-- Root amount used by the root-initialisation pass (flowchart-canvas.tsx
lines 108–122).  The final `amountValue || 0` is the identity on our model of
numbers (`0 || 0` is `0`), so both trailing branches read `amountValue`. -/
def rootAmountInit (node : FNode) : ℚ :=
  if node.useFixed ∧ fixedValuesNonempty node then sumList (node.fixedValues.getD [])
  else if node.useFixed ∧ node.fixedValue.isSome then node.fixedValue.getD 0
  else if node.amountType = AmountType.fixed then node.amountValue
  else node.amountValue

/-- Root amount used inside `compute` (flowchart-canvas.tsx lines 141–152);
unlike the initialisation pass it has no `amountType === "fixed"` case. -/
def rootAmountCompute (node : FNode) : ℚ :=
  if node.useFixed ∧ fixedValuesNonempty node then sumList (node.fixedValues.getD [])
  else if node.useFixed ∧ node.fixedValue.isSome then node.fixedValue.getD 0
  else node.amountValue

/-- Node ids occurring in the list, as a finite set (termination measure). -/
def idsOf (nodeList : List FNode) : Finset String := (nodeList.map FNode.id).toFinset

lemma findNode_id_mem {nodeList : List FNode} {nodeId : String} {node : FNode}
    (hf : findNode nodeList nodeId = some node) : nodeId ∈ nodeList.map FNode.id := by
  have hf2 : nodeList.find? (fun n => n.id == nodeId) = some node := hf
  have h1 := List.find?_some hf2
  have h2 : node ∈ nodeList := List.mem_of_find?_eq_some hf2
  have h3 : node.id = nodeId := by simpa using h1
  exact h3 ▸ List.mem_map_of_mem FNode.id h2

/-- Each recursive step of `compute` shrinks the set of node ids not yet on
the visited path: this is why the source's cycle-guarded recursion
terminates. -/
lemma card_measure_lt (nodeList : List FNode) (path : List String) (nodeId : String)
    (node : FNode) (hf : findNode nodeList nodeId = some node) (h : nodeId ∉ path) :
    (idsOf nodeList \ (nodeId :: path).toFinset).card <
      (idsOf nodeList \ path.toFinset).card := by
  have hmem : nodeId ∈ idsOf nodeList := by
    simpa [idsOf] using findNode_id_mem hf
  apply Finset.card_lt_card
  rw [List.toFinset_cons]
  have hsub : idsOf nodeList \ insert nodeId path.toFinset ⊆
      idsOf nodeList \ path.toFinset :=
    Finset.sdiff_subset_sdiff (le_refl _) (Finset.subset_insert _ _)
  rw [Finset.ssubset_iff_of_subset hsub]
  exact ⟨nodeId, by simp [Finset.mem_sdiff, hmem, List.mem_toFinset, h], by simp⟩

/-- The recursive `compute(nodeId, path)` of `calculateNodeAmounts`
(flowchart-canvas.tsx lines 124–208).  The mutable `amounts` record is
threaded explicitly; the JS `Set` path is a list.  Branches in source order:
cycle check (records 0), memo hit, missing node (records 0), root node
(records its root amount), and the parent-recursive rule computation with
`Math.round(calculated * 100) / 100`. -/
def compute (nodeList : List FNode) (s : Memo) (nodeId : String)
    (path : List String) : Memo × ℚ :=
  if h : nodeId ∈ path then ((nodeId, 0) :: s, 0)
  else
    match s.lookup nodeId with
    | some v => (s, v)
    | none =>
      match hf : findNode nodeList nodeId with
      | none => ((nodeId, 0) :: s, 0)
      | some node =>
        match node.parentId with
        | none =>
          -- source re-checks `amounts[nodeId] === undefined` here; at this
          -- point the memo was already seen to have no entry
          match s.lookup nodeId with
          | some v => (s, v)
          | none =>
            let v := rootAmountCompute node
            ((nodeId, v) :: s, v)
        | some pid =>
          let p := compute nodeList s pid (nodeId :: path)
          let v := round2 (calcShare node p.2)
          ((nodeId, v) :: p.1, v)
termination_by (idsOf nodeList \ path.toFinset).card
decreasing_by
  exact card_measure_lt nodeList path nodeId node hf h

/-- Root-initialisation pass of `calculateNodeAmounts` (lines 108–122):
every node without a parent gets its root amount recorded. -/
def initRoots (nodeList : List FNode) : Memo :=
  nodeList.foldl
    (fun s node =>
      if node.parentId = none then (node.id, rootAmountInit node) :: s else s)
    []

/-- Embeds `calculateNodeAmounts(nodeList)` (flowchart-canvas.tsx lines 104–213):
initialise roots, then run `compute` over every node in list order, threading
the memo record; the final record is returned. -/
def calculateNodeAmounts (nodeList : List FNode) : Memo :=
  nodeList.foldl (fun s node => (compute nodeList s node.id []).1)
    (initRoots nodeList)

/-! Step lemmas: one equation per branch of `compute`. -/

lemma compute_cycle (nl : List FNode) (s : Memo) (i : String) (p : List String)
    (h : i ∈ p) : compute nl s i p = ((i, 0) :: s, 0) := by
  rw [compute.eq_def]; simp [h]

lemma compute_memo (nl : List FNode) (s : Memo) (i : String) (p : List String) (v : ℚ)
    (h : i ∉ p) (hv : s.lookup i = some v) : compute nl s i p = (s, v) := by
  rw [compute.eq_def]; simp [h, hv]

lemma compute_missing (nl : List FNode) (s : Memo) (i : String) (p : List String)
    (h : i ∉ p) (hv : s.lookup i = none) (hf : findNode nl i = none) :
    compute nl s i p = ((i, 0) :: s, 0) := by
  rw [compute.eq_def]
  simp only [h, dite_false, hv]
  split <;> simp_all

lemma compute_root (nl : List FNode) (s : Memo) (i : String) (p : List String)
    (node : FNode) (h : i ∉ p) (hv : s.lookup i = none)
    (hf : findNode nl i = some node) (hr : node.parentId = none) :
    compute nl s i p = ((i, rootAmountCompute node) :: s, rootAmountCompute node) := by
  rw [compute.eq_def]
  simp only [h, dite_false, hv]
  split
  · simp_all
  · rename_i node2 heq
    rw [hf] at heq
    cases heq
    rw [hr]

lemma compute_rule (nl : List FNode) (s : Memo) (i : String) (p : List String)
    (node : FNode) (pid : String) (h : i ∉ p) (hv : s.lookup i = none)
    (hf : findNode nl i = some node) (hr : node.parentId = some pid) :
    compute nl s i p =
      ((i, round2 (calcShare node (compute nl s pid (i :: p)).2)) ::
          (compute nl s pid (i :: p)).1,
        round2 (calcShare node (compute nl s pid (i :: p)).2)) := by
  rw [compute.eq_def]
  simp only [h, dite_false, hv]
  split
  · simp_all
  · rename_i node2 heq
    rw [hf] at heq
    cases heq
    rw [hr]

/-! Memo record facts. -/

lemma lookup_cons_self (s : Memo) (k : String) (v : ℚ) :
    List.lookup k ((k, v) :: s) = some v := by
  simp [List.lookup]

lemma lookup_cons_ne (s : Memo) (k a : String) (v : ℚ) (h : k ≠ a) :
    List.lookup k ((a, v) :: s) = List.lookup k s := by
  have hb : (k == a) = false := by simpa using h
  simp [List.lookup, hb]

lemma lookup_append_isSome (l s : Memo) (k : String)
    (h : (List.lookup k s).isSome) : (List.lookup k (l ++ s)).isSome := by
  induction l with
  | nil => exact h
  | cons a t ih =>
    rcases a with ⟨ka, va⟩
    by_cases hk : k = ka
    · subst hk; simp [List.lookup]
    · have hb : (k == ka) = false := by simpa using hk
      simpa [List.lookup, hb] using ih

/-- The function `compute` only ever prepends to the memo record (the source only ever
assigns `amounts[...] = ...`; no entry is removed). -/
lemma compute_gain (nl : List FNode) (s : Memo) (i : String) (p : List String) :
    ∃ l, (compute nl s i p).1 = l ++ s := by
  induction i, p using compute.induct nl s with
  | case1 i p h =>
    refine ⟨[(i, 0)], ?_⟩
    rw [compute_cycle nl s i p h]
    rfl
  | case2 i p h v hv =>
    refine ⟨[], ?_⟩
    rw [compute_memo nl s i p v h hv]
    rfl
  | case3 i p h hv hf =>
    refine ⟨[(i, 0)], ?_⟩
    rw [compute_missing nl s i p h hv hf]
    rfl
  | case4 i p h hv node hf hr v2 hv2 =>
    exact absurd (hv.symm.trans hv2) (by simp)
  | case5 i p h hv node hf hr hv2 =>
    refine ⟨[(i, rootAmountCompute node)], ?_⟩
    rw [compute_root nl s i p node h hv hf hr]
    rfl
  | case6 i p h hv node hf pid hpid ih =>
    obtain ⟨l, hl⟩ := ih
    refine ⟨(i, round2 (calcShare node (compute nl s pid (i :: p)).2)) :: l, ?_⟩
    rw [compute_rule nl s i p node pid h hv hf hpid]
    simp [hl]

/-- Every branch of `compute(nodeId, ...)` leaves an entry for `nodeId` in
the memo record before returning. -/
lemma compute_sets (nl : List FNode) (s : Memo) (i : String) (p : List String) :
    ((compute nl s i p).1.lookup i).isSome := by
  by_cases h : i ∈ p
  · rw [compute_cycle nl s i p h]; simp [lookup_cons_self]
  · cases hv : List.lookup i s with
    | some v => rw [compute_memo nl s i p v h hv]; simp [hv]
    | none =>
      cases hf : findNode nl i with
      | none => rw [compute_missing nl s i p h hv hf]; simp [lookup_cons_self]
      | some node =>
        cases hr : node.parentId with
        | none => rw [compute_root nl s i p node h hv hf hr]; simp [lookup_cons_self]
        | some pid =>
          rw [compute_rule nl s i p node pid h hv hf hr]; simp [lookup_cons_self]

/-- A memoized value for a key not on the visited path survives a `compute`
call unchanged: `compute` only writes keys that had no memo entry on entry
(or keys on the path, which re-entered the cycle check). -/
lemma compute_stable (nl : List FNode) (s : Memo) (k : String) (v : ℚ)
    (hk : List.lookup k s = some v) :
    ∀ i p, k ∉ p → List.lookup k (compute nl s i p).1 = some v := by
  intro i p
  induction i, p using compute.induct nl s with
  | case1 i p h =>
    intro hkp
    have hki : k ≠ i := fun e => hkp (e ▸ h)
    rw [compute_cycle nl s i p h]
    exact (lookup_cons_ne s k i 0 hki).trans hk
  | case2 i p h v2 hv =>
    intro _
    rw [compute_memo nl s i p v2 h hv]
    exact hk
  | case3 i p h hv hf =>
    intro _
    have hki : k ≠ i := fun e => by rw [e, hv] at hk; cases hk
    rw [compute_missing nl s i p h hv hf]
    exact (lookup_cons_ne s k i 0 hki).trans hk
  | case4 i p h hv node hf hr v2 hv2 =>
    exact absurd (hv.symm.trans hv2) (by simp)
  | case5 i p h hv node hf hr hv2 =>
    intro _
    have hki : k ≠ i := fun e => by rw [e, hv] at hk; cases hk
    rw [compute_root nl s i p node h hv hf hr]
    exact (lookup_cons_ne s k i (rootAmountCompute node) hki).trans hk
  | case6 i p h hv node hf pid hpid ih =>
    intro hkp
    have hki : k ≠ i := fun e => by rw [e, hv] at hk; cases hk
    rw [compute_rule nl s i p node pid h hv hf hpid]
    exact (lookup_cons_ne (compute nl s pid (i :: p)).1 k i
      (round2 (calcShare node (compute nl s pid (i :: p)).2)) hki).trans
      (ih (by simp [hki, hkp]))

/-- Running the main `forEach` pass preserves an existing memo value. -/
lemma foldl_compute_stable (nl : List FNode) (k : String) (v : ℚ) :
    ∀ (l : List FNode) (s : Memo), List.lookup k s = some v →
      List.lookup k (l.foldl (fun s node => (compute nl s node.id []).1) s) = some v := by
  intro l
  induction l with
  | nil => intro s hs; exact hs
  | cons a t ih =>
    intro s hs
    simp only [List.foldl_cons]
    exact ih _ (compute_stable nl s k v hs a.id [] (by simp))

/-- Running the main `forEach` pass preserves presence of a memo entry. -/
lemma foldl_compute_isSome (nl : List FNode) (k : String) :
    ∀ (l : List FNode) (s : Memo), (List.lookup k s).isSome →
      (List.lookup k (l.foldl (fun s node => (compute nl s node.id []).1) s)).isSome := by
  intro l
  induction l with
  | nil => intro s hs; exact hs
  | cons a t ih =>
    intro s hs
    simp only [List.foldl_cons]
    refine ih _ ?_
    obtain ⟨l', hl'⟩ := compute_gain nl s a.id []
    rw [hl']
    exact lookup_append_isSome l' s k hs

/-- After the main pass, every node of the working list has a memo entry. -/
lemma foldl_compute_sets (nl : List FNode) (node : FNode) :
    ∀ (l : List FNode) (s : Memo), node ∈ l →
      (List.lookup node.id
        (l.foldl (fun s n => (compute nl s n.id []).1) s)).isSome := by
  intro l
  induction l with
  | nil => intro s h; cases h
  | cons a t ih =>
    intro s hmem
    simp only [List.foldl_cons]
    rcases List.mem_cons.mp hmem with rfl | ht
    · exact foldl_compute_isSome nl node.id t _ (compute_sets nl s node.id [])
    · exact ih _ ht

/-- The root-initialisation pass does not touch keys outside the list. -/
lemma initRoots_foldl_other (k : String) :
    ∀ (l : List FNode) (s : Memo), k ∉ l.map FNode.id →
      List.lookup k
        (l.foldl
          (fun s node =>
            if node.parentId = none then (node.id, rootAmountInit node) :: s else s)
          s) = List.lookup k s := by
  intro l
  induction l with
  | nil => intro s _; rfl
  | cons a t ih =>
    intro s hk
    rw [List.map_cons] at hk
    have hka : k ≠ a.id := fun e => hk (by rw [e]; exact List.mem_cons_self _ _)
    have hkt : k ∉ t.map FNode.id := fun m => hk (List.mem_cons_of_mem _ m)
    simp only [List.foldl_cons]
    by_cases hpar : a.parentId = none
    · rw [if_pos hpar]
      rw [ih _ hkt, lookup_cons_ne s k a.id _ hka]
    · rw [if_neg hpar]
      exact ih _ hkt

lemma initRoots_foldl_mem (node : FNode) :
    ∀ (l : List FNode) (s : Memo), (l.map FNode.id).Nodup → node ∈ l →
      node.parentId = none →
      List.lookup node.id
        (l.foldl
          (fun s node =>
            if node.parentId = none then (node.id, rootAmountInit node) :: s else s)
          s) = some (rootAmountInit node) := by
  intro l
  induction l with
  | nil => intro s _ hmem _; cases hmem
  | cons a t ih =>
    intro s hnd hmem hroot
    rw [List.map_cons] at hnd
    have hnd2 := List.nodup_cons.mp hnd
    simp only [List.foldl_cons]
    rcases List.mem_cons.mp hmem with rfl | ht
    · rw [if_pos hroot]
      rw [initRoots_foldl_other node.id t _ hnd2.1]
      exact lookup_cons_self s node.id _
    · exact ih _ hnd2.2 ht hroot

/-- When node ids are distinct, the root-initialisation pass records exactly
the root amount of every parentless node. -/
lemma initRoots_lookup (nodeList : List FNode) (node : FNode)
    (hnd : (nodeList.map FNode.id).Nodup) (hmem : node ∈ nodeList)
    (hroot : node.parentId = none) :
    List.lookup node.id (initRoots nodeList) = some (rootAmountInit node) :=
  initRoots_foldl_mem node nodeList [] hnd hmem hroot

/-- The `FlowchartConnection` record (`{id, from, to}`); `from` and `to` are Lean
keywords, hence the field names `from_` and `to_`. -/
structure Conn where
  id : String
  from_ : String
  to_ : String
deriving DecidableEq, Repr

/-- The component state of `FlowchartCanvas` relevant to structural edits:
the `nodes` and `connections` arrays (selection/zoom/pan are display-only). -/
structure CanvasState where
  nodes : List FNode
  connections : List Conn
deriving DecidableEq, Repr

/-- Embeds `handleDeleteNode(nodeId)` (flowchart-canvas.tsx lines 578–586): filters
the node out of `nodes` and filters out every connection whose `from` or `to`
references it.  No other field of any remaining node is touched. -/
def handleDeleteNode (st : CanvasState) (nodeId : String) : CanvasState :=
  { nodes := st.nodes.filter (fun n => !(n.id == nodeId)),
    connections := st.connections.filter
      (fun c => !(c.from_ == nodeId) && !(c.to_ == nodeId)) }

end Canvas

namespace Tree

/-- Entry type of `nodeValues[nodeId]`: the percent/fixed pair of the template
engine (`src/unnamed/part_005`); both fields are always present on an entry. -/
structure NodeVal where
  percent : ℚ
  fixed : ℚ
deriving DecidableEq, Repr

/-- Embeds the destructuring of `percent` (default 0) from a `nodeValues` entry. -/
def nvPercent (nodeValues : List (String × NodeVal)) (nodeId : String) : ℚ :=
  ((nodeValues.lookup nodeId).map NodeVal.percent).getD 0

/-- Embeds the destructuring of `fixed` (default 0) from a `nodeValues` entry. -/
def nvFixed (nodeValues : List (String × NodeVal)) (nodeId : String) : ℚ :=
  ((nodeValues.lookup nodeId).map NodeVal.fixed).getD 0

/-- Embeds the check `nodeId.startsWith("projectLeads_lead_")`. -/
def isDynamicChild (nodeId : String) : Bool :=
  nodeId.startsWith "projectLeads_lead_"

/-- A node template of the static payout schema `@/lib/payout-schema`, which
is staged as the second document of `src/app/canvas/page.tsx` (lines 84–317).
Modelled fields are the ones the engine reads: `kind` (checked against
`"group"`), `childIds`, `defaultPercent` and `defaultFixed`; display fields
(`label`, `description`, `accent`) are omitted.  The module's concrete
constants are embedded below as `realPayoutNodes` and `realParentMap`. -/
structure NodeTemplate where
  kind : Option String := none
  childIds : Option (List String) := none
  defaultPercent : Option ℚ := none
  defaultFixed : Option ℚ := none
deriving DecidableEq, Repr

/-- The recursive `compute(nodeId)` of the template engine
(`src/unnamed/part_005` lines 113–147, duplicated in
`commission-flow-diagram.tsx` lines 28–56 without the dynamic-child parent
call).  The source has no cycle guard: on a cyclic `parentMap` the JS
recursion would not terminate (stack overflow), which the embedding models
with an explicit `fuel` parameter — fuel exhaustion returns 0 and is
unreachable whenever `parentMap` is a forest and the fuel exceeds the longest
parent chain.  The `taggerFee`-under-`taggerCombined` special case computes
from `developerPayout` instead of the parent's amount.  In the repository
`parentMap` is always the module constant `buildParentMap()` of the staged
schema (embedded below as `realParentMap`); it is kept a parameter here, like
the runtime `nodeValues`, so the universal theorems range over all inputs,
while every concrete evaluation below instantiates it with `realParentMap`. -/
def compute (parentMap : List (String × String))
    (nodeValues : List (String × NodeVal)) (developerPayout : ℚ) :
    Nat → Memo → String → Memo × ℚ
  | 0, s, _ => (s, 0)
  | fuel + 1, s, nodeId =>
    match s.lookup nodeId with
    | some v => (s, v)
    | none =>
      if isDynamicChild nodeId then
        let p := compute parentMap nodeValues developerPayout fuel s "projectLeads"
        let amount := round2 (nvFixed nodeValues nodeId)
        ((nodeId, amount) :: p.1, amount)
      else
        match parentMap.lookup nodeId with
        | none => ((nodeId, 0) :: s, 0)
        | some parentId =>
          let p := compute parentMap nodeValues developerPayout fuel s parentId
          if nodeId = "taggerFee" ∧ parentId = "taggerCombined" then
            let amount := round2 (developerPayout * nvPercent nodeValues nodeId +
              nvFixed nodeValues nodeId)
            ((nodeId, amount) :: p.1, amount)
          else
            let amount := round2 (p.2 * nvPercent nodeValues nodeId +
              nvFixed nodeValues nodeId)
            ((nodeId, amount) :: p.1, amount)

/-- The `nodeAmounts` memo of `src/unnamed/part_005` (lines 108–157): seed
the canonical root with `developerPayout`, run `compute` over every schema
key, then over every dynamic child.  The schema key iteration order is the
association-list order of `payoutNodes`. -/
def nodeAmounts (payoutNodes : List (String × NodeTemplate))
    (parentMap : List (String × String)) (nodeValues : List (String × NodeVal))
    (dynamicChildren : List (String × List String)) (developerPayout : ℚ)
    (rootNodeId : String) (fuel : Nat) : Memo :=
  let s0 : Memo := [(rootNodeId, developerPayout)]
  let s1 := (payoutNodes.map Prod.fst).foldl
    (fun s k => (compute parentMap nodeValues developerPayout fuel s k).1) s0
  dynamicChildren.foldl
    (fun s pr => pr.2.foldl
      (fun s c => (compute parentMap nodeValues developerPayout fuel s c).1) s)
    s1

/-- Embeds `getDisplayAmount(nodeId)` of `commission-flow-diagram.tsx` (lines
67–82; `src/unnamed/part_005` lines 159–168 is the same without the
dynamic-children branch): a `kind === "group"` template displays the sum of
its children's resolved amounts; a node with dynamic children displays the
sum of those; otherwise the node's own resolved amount (the root scalar for
the canonical root when no amount is recorded). -/
def getDisplayAmount (payoutNodes : List (String × NodeTemplate))
    (dynamicChildren : List (String × List String)) (amounts : Memo)
    (rootNodeId : String) (developerPayout : ℚ) (nodeId : String) : ℚ :=
  if ((payoutNodes.lookup nodeId).bind NodeTemplate.kind) = some "group" then
    (((payoutNodes.lookup nodeId).bind NodeTemplate.childIds).getD []).foldl
      (fun sum childId => sum + ((amounts.lookup childId).getD 0)) 0
  else if (dynamicChildren.lookup nodeId).isSome then
    ((dynamicChildren.lookup nodeId).getD []).foldl
      (fun sum childId => sum + ((amounts.lookup childId).getD 0)) 0
  else
    (amounts.lookup nodeId).getD (if nodeId = rootNodeId then developerPayout else 0)

/-- The `PayoutTree` component state that feeds the amount engine and the
mutation handlers; view-only state (`activeNodeId`, modal flags, `nodeNames`,
drag info) is omitted. -/
structure PayoutState where
  developerPayout : ℚ
  nodeValues : List (String × NodeVal)
  childOrders : List (String × List String)
  projectLeadsTotal : List (String × Nat)
  dynamicChildren : List (String × List String)
deriving DecidableEq, Repr

/-- dnd-kit's `arrayMove(array, from, to)`: remove the element at `from` and
re-insert it at `to`. -/
def arrayMove (l : List String) (i j : Nat) : List String :=
  match l.get? i with
  | none => l
  | some a => (l.eraseIdx i).insertIdx j a

/-- Embeds `handleDragEnd` (`src/unnamed/part_005` lines 258–306), restricted to
its state effect on the embedded fields: the drop-on-parent branch only
navigates (no engine-relevant state change) and the reorder branch replaces
`childOrders[draggedParentId]` by an `arrayMove` of the current order.  The
`indexOf === -1` guards are the membership tests. -/
def handleDragEnd (st : PayoutState) (activeNodeId draggedNodeId overNodeId : String)
    (draggedParentId overParentId : Option String) : PayoutState :=
  if overNodeId = activeNodeId ∧ draggedParentId = some activeNodeId then st
  else if draggedParentId = none ∨ draggedParentId ≠ overParentId ∨
      draggedParentId ≠ some activeNodeId then st
  else
    match draggedParentId with
    | none => st
    | some p =>
      match st.childOrders.lookup p with
      | none => st
      | some currentOrder =>
        if draggedNodeId ∈ currentOrder ∧ overNodeId ∈ currentOrder then
          { st with childOrders :=
              (p, arrayMove currentOrder (currentOrder.indexOf draggedNodeId)
                (currentOrder.indexOf overNodeId)) :: st.childOrders }
        else st

/-- The `nodeAmounts` memo as a function of the component state: it reads
only `developerPayout`, `nodeValues` and `dynamicChildren` (the `useMemo`
dependency list in the source is exactly those three). -/
def nodeAmountsOf (payoutNodes : List (String × NodeTemplate))
    (parentMap : List (String × String)) (rootNodeId : String) (fuel : Nat)
    (st : PayoutState) : Memo :=
  nodeAmounts payoutNodes parentMap st.nodeValues st.dynamicChildren
    st.developerPayout rootNodeId fuel

/-- The `parentAmount` estimate of `handleSubmitProjectLeadsModal`
(`src/unnamed/part_005` lines 361–369): when the expandable node has a
parent, its amount is re-derived as
`grandParentAmount * parentPercent + parentFixed` — reading the grandparent
from the current `nodeAmounts` memo (`?? developerPayout`), with **no**
intermediate `round2` — else the raw `developerPayout`. -/
def leadParentAmount (payoutNodes : List (String × NodeTemplate))
    (parentMap : List (String × String)) (rootNodeId : String) (fuel : Nat)
    (st : PayoutState) (pending : String) : ℚ :=
  let na := nodeAmountsOf payoutNodes parentMap rootNodeId fuel st
  match parentMap.lookup pending with
  | none => st.developerPayout
  | some parentId =>
    let grandParentAmount :=
      match parentMap.lookup parentId with
      | some parentParentId => (na.lookup parentParentId).getD st.developerPayout
      | none => st.developerPayout
    grandParentAmount * nvPercent st.nodeValues parentId +
      nvFixed st.nodeValues parentId

/-- The per-lead equal share seeded by `handleSubmitProjectLeadsModal`
(lines 370–372): `parentAmount * ownPercent / count`, where `ownPercent`
defaults to 0.5 when the pending node has no `nodeValues` entry.  Note it
uses the percent rule only — the expandable node's own `fixed` value is not
added — and no rounding happens before the final per-share `round2`. -/
def leadShare (payoutNodes : List (String × NodeTemplate))
    (parentMap : List (String × String)) (rootNodeId : String) (fuel : Nat)
    (st : PayoutState) (pending : String) (count : Nat) : ℚ :=
  leadParentAmount payoutNodes parentMap rootNodeId fuel st pending *
    ((st.nodeValues.lookup pending).map NodeVal.percent).getD (1/2) /
    (count : ℚ)

/-- Embeds `handleSubmitProjectLeadsModal` (`src/unnamed/part_005` lines 339–393)
with the modal input already parsed to `count`: for a positive count it
records the total, replaces the dynamic child id list with
`<pending>_lead_1 .. <pending>_lead_count`, and seeds every generated child
with `percent = 0` and `fixed = round2` of the equal share `leadShare`. -/
def handleSubmitProjectLeadsModal (payoutNodes : List (String × NodeTemplate))
    (parentMap : List (String × String)) (rootNodeId : String) (fuel : Nat)
    (st : PayoutState) (pending : String) (count : Nat) : PayoutState :=
  if 0 < count then
    let childIds := (List.range count).map
      (fun i => pending ++ "_lead_" ++ toString (i + 1))
    let sharePerLead := leadShare payoutNodes parentMap rootNodeId fuel st pending count
    { st with
      projectLeadsTotal := (pending, count) :: st.projectLeadsTotal,
      dynamicChildren := (pending, childIds) :: st.dynamicChildren,
      nodeValues := childIds.foldl
        (fun nv childId => (childId, ⟨0, round2 sharePerLead⟩) :: nv)
        st.nodeValues }
  else st

end Tree


/-! Shared evaluation helpers. -/

lemma round2_zero : round2 0 = 0 :=
  round2_eval 0 0 0 (by norm_num) (by norm_num) (by norm_num)

/-! Claims about the free-form engine (`flowchart-canvas.tsx`). -/

/-- C1: for every (non-root) node with both the percent and fixed flags set
and explicit value lists, the amount `compute` resolves and records for it
equals `round(parentAmount * (Σ percentValues)/100 + Σ fixedValues, 2)`,
where `parentAmount` is the parent's resolved amount obtained by the
recursive call.  The spec's concrete instance (root 1000, child
percent=[10], fixed=[50] resolving to 150.00) is the witness. -/
theorem claim_C1_combined_rule (nodeList : List Canvas.FNode) (s : Memo)
    (nodeId pid : String) (path : List String) (node : Canvas.FNode)
    (ps fs : List ℚ)
    (hpath : nodeId ∉ path) (hmemo : s.lookup nodeId = none)
    (hfind : Canvas.findNode nodeList nodeId = some node)
    (hparent : node.parentId = some pid)
    (hup : node.usePercent = true) (huf : node.useFixed = true)
    (hps : node.percentValues = some ps) (hpsne : ps ≠ [])
    (hfs : node.fixedValues = some fs) (hfsne : fs ≠ []) :
    (Canvas.compute nodeList s nodeId path).2 =
      round2 ((Canvas.compute nodeList s pid (nodeId :: path)).2 *
        Canvas.sumList ps / 100 + Canvas.sumList fs) := by
  rw [Canvas.compute_rule nodeList s nodeId path node pid hpath hmemo hfind hparent]
  have hpt : Canvas.percentTotal node = Canvas.sumList ps := by
    simp [Canvas.percentTotal, hup, hps, Canvas.percentValuesNonempty, hpsne]
  have hft : Canvas.fixedTotal node = Canvas.sumList fs := by
    simp [Canvas.fixedTotal, huf, hfs, Canvas.fixedValuesNonempty, hfsne]
  simp [Canvas.calcShare, hup, huf, hpt, hft]

/-- Root node `{id: "root", fixedValues: [1000], useFixed: true}` of the
combined-propagation example. -/
def c1Root : Canvas.FNode :=
  ⟨"root", Canvas.AmountType.fixed, 1000, none, some [1000], none, none,
    false, true, none, none⟩

/-- Child node `{id: "child", percentValues: [10], fixedValues: [50],
usePercent: true, useFixed: true, parentId: "root"}`. -/
def c1Child : Canvas.FNode :=
  ⟨"child", Canvas.AmountType.percent, 0, some [10], some [50], none, none,
    true, true, none, some "root"⟩

/-- Witness for C1: with root amount 1000, the child with percent=[10] and
fixed=[50] resolves via the combined rule, and the value is 150.00. -/
theorem claim_C1_witness :
    (Canvas.compute [c1Root, c1Child] (Canvas.initRoots [c1Root, c1Child])
        "child" []).2 =
      round2 ((Canvas.compute [c1Root, c1Child] (Canvas.initRoots [c1Root, c1Child])
        "root" ["child"]).2 * Canvas.sumList [10] / 100 + Canvas.sumList [50]) ∧
    (Canvas.compute [c1Root, c1Child] (Canvas.initRoots [c1Root, c1Child])
        "child" []).2 = 150 := by
  constructor
  · exact claim_C1_combined_rule [c1Root, c1Child] (Canvas.initRoots [c1Root, c1Child])
      "child" "root" [] c1Child [10] [50] (by simp) rfl rfl rfl rfl rfl rfl
      (by simp) rfl (by simp)
  · rw [Canvas.compute_rule [c1Root, c1Child] (Canvas.initRoots [c1Root, c1Child])
      "child" [] c1Child "root" (by simp) rfl rfl rfl]
    rw [Canvas.compute_memo [c1Root, c1Child] (Canvas.initRoots [c1Root, c1Child])
      "root" ["child"] (Canvas.rootAmountInit c1Root) (by simp) rfl]
    have hshare : Canvas.calcShare c1Child (Canvas.rootAmountInit c1Root) =
        1000 * 10 / 100 + 50 := by
      norm_num [Canvas.calcShare, Canvas.percentTotal, Canvas.fixedTotal,
        Canvas.percentValuesNonempty, Canvas.fixedValuesNonempty,
        Canvas.rootAmountInit, Canvas.sumList, c1Child, c1Root]
    show round2 (Canvas.calcShare c1Child (Canvas.rootAmountInit c1Root)) = 150
    rw [hshare]
    exact round2_eval _ _ 15000 (by norm_num) (by norm_num) (by norm_num)

/-- C2: the engine is a pure function of the node list — in the embedding
`calculateNodeAmounts` is a mathematical function of its argument, so two
invocations on the same node list are definitionally the same map.  The
faithfulness of this reading rests on the embedding itself: the source
function reads nothing but its argument (no randomness, clock, or external
state), which is what allowed it to be embedded as a pure function. -/
theorem claim_C2_deterministic (nodeList : List Canvas.FNode) :
    Canvas.calculateNodeAmounts nodeList = Canvas.calculateNodeAmounts nodeList := rfl

/-- Cycle node A: `useFixed` with `fixedValues [50]`, parent B. -/
def c3A : Canvas.FNode :=
  ⟨"A", Canvas.AmountType.fixed, 0, none, some [50], none, none,
    false, true, none, some "B"⟩

/-- Cycle node B: `usePercent` with `percentValues [50]`, parent A. -/
def c3B : Canvas.FNode :=
  ⟨"B", Canvas.AmountType.percent, 0, some [50], none, none, none,
    true, false, none, some "A"⟩

/-- Counterexample to C3 as stated: in the two-node parent cycle A ↔ B where
A carries `fixedValues [50]`, resolution terminates but A's final recorded
amount is 50, not 0 — a fixed-rule node in a cycle resolves to its fixed sum
because its rule ignores the (zeroed) parent amount. -/
theorem claim_C3_counterexample :
    List.lookup "A" (Canvas.calculateNodeAmounts [c3A, c3B]) = some 50 ∧
    (50 : ℚ) ≠ 0 := by
  have hcycle : Canvas.compute [c3A, c3B] [] "A" ["B", "A"] = ([("A", 0)], 0) :=
    Canvas.compute_cycle _ _ _ _ (by simp)
  have hshareB : Canvas.calcShare c3B 0 = 0 := by
    norm_num [Canvas.calcShare, Canvas.percentTotal, Canvas.fixedTotal,
      Canvas.percentValuesNonempty, Canvas.fixedValuesNonempty,
      Canvas.sumList, c3B]
  have hB : Canvas.compute [c3A, c3B] [] "B" ["A"] =
      ([("B", 0), ("A", 0)], 0) := by
    rw [Canvas.compute_rule [c3A, c3B] [] "B" ["A"] c3B "A" (by simp) rfl rfl rfl,
      hcycle]
    show ((("B", round2 (Canvas.calcShare c3B 0)) :: [("A", 0)]),
      round2 (Canvas.calcShare c3B 0)) = _
    rw [hshareB, round2_zero]
  have hshareA : Canvas.calcShare c3A 0 = 50 := by
    norm_num [Canvas.calcShare, Canvas.percentTotal, Canvas.fixedTotal,
      Canvas.percentValuesNonempty, Canvas.fixedValuesNonempty,
      Canvas.sumList, c3A]
  have hA : Canvas.compute [c3A, c3B] [] "A" [] =
      ([("A", 50), ("B", 0), ("A", 0)], 50) := by
    rw [Canvas.compute_rule [c3A, c3B] [] "A" [] c3A "B" (by simp) rfl rfl rfl, hB]
    show ((("A", round2 (Canvas.calcShare c3A 0)) :: [("B", 0), ("A", 0)]),
      round2 (Canvas.calcShare c3A 0)) = _
    rw [hshareA]
    rw [round2_eval 50 50 5000 (by norm_num) (by norm_num) (by norm_num)]
  constructor
  · show List.lookup "A"
      ((Canvas.compute [c3A, c3B]
        (Canvas.compute [c3A, c3B] (Canvas.initRoots [c3A, c3B]) "A" []).1
        "B" []).1) = some 50
    have hinit : Canvas.initRoots [c3A, c3B] = [] := rfl
    rw [hinit, hA]
    rw [Canvas.compute_memo [c3A, c3B] [("A", 50), ("B", 0), ("A", 0)] "B" [] 0
      (by simp) (by simp [List.lookup])]
    simp [List.lookup]
  · norm_num

/-- C3 (amended): resolution of a two-node parent cycle terminates (the
embedding of `compute` is a total function, by the shrinking-path measure),
the node that re-enters the cycle is recorded with amount 0 at re-entry, and
when both cycle nodes carry percent-only rules (the spec's reading), both
resolve to 0: each node's rule is evaluated against a parent amount of 0.
With fixed-value rules the final amount is the fixed sum instead (see the
counterexample). -/
theorem claim_C3_cycle_percent_only_zero (A B : Canvas.FNode) (psA psB : List ℚ)
    (hid : A.id ≠ B.id)
    (hApar : A.parentId = some B.id) (hBpar : B.parentId = some A.id)
    (hAup : A.usePercent = true) (hAuf : A.useFixed = false)
    (hAps : A.percentValues = some psA) (hApos : 0 < Canvas.sumList psA)
    (hBup : B.usePercent = true) (hBuf : B.useFixed = false)
    (hBps : B.percentValues = some psB) (hBpos : 0 < Canvas.sumList psB) :
    List.lookup A.id (Canvas.calculateNodeAmounts [A, B]) = some 0 ∧
    List.lookup B.id (Canvas.calculateNodeAmounts [A, B]) = some 0 := by
  have hBne : psB ≠ [] := by
    intro h
    rw [h] at hBpos
    norm_num [Canvas.sumList] at hBpos
  have hAne : psA ≠ [] := by
    intro h
    rw [h] at hApos
    norm_num [Canvas.sumList] at hApos
  have hinit : Canvas.initRoots [A, B] = [] := by
    simp [Canvas.initRoots, hApar, hBpar]
  have hfindA : Canvas.findNode [A, B] A.id = some A := by
    simp [Canvas.findNode, List.find?]
  have hABfalse : (A.id == B.id) = false := by simpa using hid
  have hfindB : Canvas.findNode [A, B] B.id = some B := by
    simp [Canvas.findNode, List.find?, hABfalse]
  have hcycle : Canvas.compute [A, B] [] A.id [B.id, A.id] = ([(A.id, 0)], 0) :=
    Canvas.compute_cycle _ _ _ _ (by simp)
  have hshareB : Canvas.calcShare B 0 = 0 := by
    have hpt : Canvas.percentTotal B = Canvas.sumList psB := by
      simp [Canvas.percentTotal, hBup, hBps, Canvas.percentValuesNonempty, hBne]
    simp [Canvas.calcShare, hBup, hBuf, hpt, hBpos]
  have hB : Canvas.compute [A, B] [] B.id [A.id] =
      ([(B.id, 0), (A.id, 0)], 0) := by
    rw [Canvas.compute_rule [A, B] [] B.id [A.id] B A.id
      (by simp [Ne.symm hid]) rfl hfindB hBpar, hcycle]
    show (((B.id, round2 (Canvas.calcShare B 0)) :: [(A.id, 0)]),
      round2 (Canvas.calcShare B 0)) = _
    rw [hshareB, round2_zero]
  have hshareA : Canvas.calcShare A 0 = 0 := by
    have hpt : Canvas.percentTotal A = Canvas.sumList psA := by
      simp [Canvas.percentTotal, hAup, hAps, Canvas.percentValuesNonempty, hAne]
    simp [Canvas.calcShare, hAup, hAuf, hpt, hApos]
  have hA : Canvas.compute [A, B] [] A.id [] =
      ([(A.id, 0), (B.id, 0), (A.id, 0)], 0) := by
    rw [Canvas.compute_rule [A, B] [] A.id [] A B.id (by simp) rfl hfindA hApar, hB]
    show (((A.id, round2 (Canvas.calcShare A 0)) :: [(B.id, 0), (A.id, 0)]),
      round2 (Canvas.calcShare A 0)) = _
    rw [hshareA, round2_zero]
  have hcalc : Canvas.calculateNodeAmounts [A, B] =
      [(A.id, 0), (B.id, 0), (A.id, 0)] := by
    show (Canvas.compute [A, B]
      (Canvas.compute [A, B] (Canvas.initRoots [A, B]) A.id []).1 B.id []).1 = _
    rw [hinit, hA]
    rw [Canvas.compute_memo [A, B] [(A.id, 0), (B.id, 0), (A.id, 0)] B.id [] 0
      (by simp)
      ((Canvas.lookup_cons_ne _ B.id A.id 0 (Ne.symm hid)).trans
        (Canvas.lookup_cons_self _ B.id 0))]
  rw [hcalc]
  constructor
  · exact Canvas.lookup_cons_self _ A.id 0
  · exact (Canvas.lookup_cons_ne _ B.id A.id 0 (Ne.symm hid)).trans
      (Canvas.lookup_cons_self _ B.id 0)

/-- Percent-only cycle node A for the C3 witness. -/
def c3WA : Canvas.FNode :=
  ⟨"A", Canvas.AmountType.percent, 0, some [50], none, none, none,
    true, false, none, some "B"⟩

/-- Percent-only cycle node B for the C3 witness. -/
def c3WB : Canvas.FNode :=
  ⟨"B", Canvas.AmountType.percent, 0, some [50], none, none, none,
    true, false, none, some "A"⟩

/-- Witness for the amended C3: the spec's percent-only cycle A ↔ B resolves
both nodes to 0. -/
theorem claim_C3_witness :
    List.lookup "A" (Canvas.calculateNodeAmounts [c3WA, c3WB]) = some 0 ∧
    List.lookup "B" (Canvas.calculateNodeAmounts [c3WA, c3WB]) = some 0 :=
  claim_C3_cycle_percent_only_zero c3WA c3WB [50] [50] (by decide) rfl rfl
    rfl rfl rfl (by norm_num [Canvas.sumList]) rfl rfl rfl
    (by norm_num [Canvas.sumList])

/-- Parent node of the C6 counterexample state. -/
def c6P : Canvas.FNode :=
  ⟨"P", Canvas.AmountType.fixed, 100, none, none, none, none,
    false, false, none, none⟩

/-- Child node of the C6 counterexample state; its `parentId` is `"P"`. -/
def c6C : Canvas.FNode :=
  ⟨"C", Canvas.AmountType.percent, 50, none, none, none, none,
    false, false, none, some "P"⟩

/-- Canvas state with parent P, child C and the connecting edge. -/
def c6St : Canvas.CanvasState := ⟨[c6P, c6C], [⟨"conn-P-C", "P", "C"⟩]⟩

/-- Counterexample to C6 as stated: after `handleDeleteNode("P")` the child
C survives with `parentId` still `"P"` — the handler never clears the
`parentId` of former children, so they do not become roots. -/
theorem claim_C6_counterexample :
    (Canvas.handleDeleteNode c6St "P").nodes = [c6C] ∧
    c6C.parentId = some "P" ∧ some "P" ≠ (none : Option String) := by
  refine ⟨rfl, rfl, by simp⟩

/-- C6 (amended): `handleDeleteNode(nodeId)` removes exactly the nodes with
that id and exactly the connections referencing it; every surviving node is
kept verbatim — in particular a former child keeps its dangling `parentId`
(it is not cleared, so the child is not turned into a root; resolution then
treats the missing parent as amount 0). -/
theorem claim_C6_delete_removes_and_severs (st : Canvas.CanvasState) (nodeId : String) :
    (∀ n : Canvas.FNode, n ∈ (Canvas.handleDeleteNode st nodeId).nodes ↔
      (n ∈ st.nodes ∧ n.id ≠ nodeId)) ∧
    (∀ c : Canvas.Conn, c ∈ (Canvas.handleDeleteNode st nodeId).connections ↔
      (c ∈ st.connections ∧ c.from_ ≠ nodeId ∧ c.to_ ≠ nodeId)) := by
  constructor
  · intro n
    simp [Canvas.handleDeleteNode, List.mem_filter]
  · intro c
    simp [Canvas.handleDeleteNode, List.mem_filter, and_assoc]

/-- Detached parentless node with `useFixed = false` and `amountValue = 42`
(legacy `amountType: "fixed"` format). -/
def c8D : Canvas.FNode :=
  ⟨"d", Canvas.AmountType.fixed, 42, none, none, none, none,
    false, false, none, none⟩

/-- Counterexample to C8 as stated: a detached node with `useFixed = false`
does not resolve to 0 — the root-amount fallback chain reads its legacy
`amountValue` (42), contradicting "the sum of its own fixed values when
useFixed is set and 0 otherwise". -/
theorem claim_C8_counterexample :
    List.lookup "d" (Canvas.calculateNodeAmounts [c8D]) = some 42 ∧
    (42 : ℚ) ≠ 0 := by
  constructor
  · show List.lookup "d" ((Canvas.compute [c8D] (Canvas.initRoots [c8D]) "d" []).1)
      = some 42
    rw [Canvas.compute_memo [c8D] (Canvas.initRoots [c8D]) "d" [] 42 (by simp) rfl]
    rfl
  · norm_num

/-- C8 (amended): a parentless node's recorded amount is its root amount per
the source's fallback chain `rootAmountInit`: the sum of `fixedValues` when
`useFixed` and the list is nonempty, else the legacy `fixedValue` when
`useFixed`, else its `amountValue` (which is 0 for nodes created without an
amount) — independent of every other node.  The engine has no root-scalar
input at all, so the amount is trivially independent of any global payout. -/
theorem claim_C8_detached_root_amount (nodeList : List Canvas.FNode)
    (node : Canvas.FNode)
    (hnd : (nodeList.map Canvas.FNode.id).Nodup) (hmem : node ∈ nodeList)
    (hroot : node.parentId = none) :
    List.lookup node.id (Canvas.calculateNodeAmounts nodeList) =
      some (Canvas.rootAmountInit node) := by
  unfold Canvas.calculateNodeAmounts
  exact Canvas.foldl_compute_stable nodeList node.id _ nodeList
    (Canvas.initRoots nodeList)
    (Canvas.initRoots_lookup nodeList node hnd hmem hroot)

/-- The spec's detached-root example: `useFixed = true`, `fixed = [75]`. -/
def c8W : Canvas.FNode :=
  ⟨"d75", Canvas.AmountType.percent, 0, none, some [75], none, none,
    false, true, none, none⟩

/-- Witness for the amended C8: the node with `useFixed=true, fixed=[75]`
resolves to its root amount, which is 75.00. -/
theorem claim_C8_witness :
    List.lookup "d75" (Canvas.calculateNodeAmounts [c8W]) =
      some (Canvas.rootAmountInit c8W) ∧
    Canvas.rootAmountInit c8W = 75 := by
  constructor
  · exact claim_C8_detached_root_amount [c8W] c8W (by simp) (by simp) rfl
  · norm_num [Canvas.rootAmountInit, c8W, Canvas.fixedValuesNonempty,
      Canvas.sumList]

/-- C10: `calculateNodeAmounts` returns a map with an entry for every node
id in the input list — every branch of `compute` records an amount for the
requested id before returning, and later calls never remove entries. -/
theorem claim_C10_every_node_assigned (nodeList : List Canvas.FNode)
    (node : Canvas.FNode) (hmem : node ∈ nodeList) :
    (List.lookup node.id (Canvas.calculateNodeAmounts nodeList)).isSome := by
  unfold Canvas.calculateNodeAmounts
  exact Canvas.foldl_compute_sets nodeList node nodeList
    (Canvas.initRoots nodeList) hmem

/-- A node whose parent id dangles (no node `"x"` exists). -/
def c10N : Canvas.FNode :=
  ⟨"n", Canvas.AmountType.percent, 10, none, none, none, none,
    false, false, none, some "x"⟩

/-- Witness for C10 at a node with a dangling parent reference. -/
theorem claim_C10_witness :
    (List.lookup "n" (Canvas.calculateNodeAmounts [c10N])).isSome :=
  claim_C10_every_node_assigned [c10N] c10N (by simp)

/-! Step lemmas for the template engine. -/

namespace Tree

lemma compute_memoized (pm : List (String × String)) (nv : List (String × NodeVal))
    (payout : ℚ) (fuel : Nat) (s : Memo) (i : String) (v : ℚ)
    (hv : s.lookup i = some v) :
    compute pm nv payout (fuel + 1) s i = (s, v) := by
  simp [compute, hv]

lemma compute_noparent (pm : List (String × String)) (nv : List (String × NodeVal))
    (payout : ℚ) (fuel : Nat) (s : Memo) (i : String)
    (hv : s.lookup i = none) (hd : isDynamicChild i = false)
    (hp : pm.lookup i = none) :
    compute pm nv payout (fuel + 1) s i = ((i, 0) :: s, 0) := by
  simp [compute, hv, hd, hp]

lemma compute_tagger (pm : List (String × String)) (nv : List (String × NodeVal))
    (payout : ℚ) (fuel : Nat) (s : Memo)
    (hv : s.lookup "taggerFee" = none)
    (hp : pm.lookup "taggerFee" = some "taggerCombined") :
    compute pm nv payout (fuel + 1) s "taggerFee" =
      (("taggerFee", round2 (payout * nvPercent nv "taggerFee" +
          nvFixed nv "taggerFee")) ::
        (compute pm nv payout fuel s "taggerCombined").1,
        round2 (payout * nvPercent nv "taggerFee" + nvFixed nv "taggerFee")) := by
  have hd : isDynamicChild "taggerFee" = false := rfl
  simp [compute, hv, hd, hp]

lemma compute_step_rule (pm : List (String × String)) (nv : List (String × NodeVal))
    (payout : ℚ) (fuel : Nat) (s : Memo) (i pid : String)
    (hv : s.lookup i = none) (hd : isDynamicChild i = false)
    (hp : pm.lookup i = some pid)
    (ht : ¬(i = "taggerFee" ∧ pid = "taggerCombined")) :
    compute pm nv payout (fuel + 1) s i =
      ((i, round2 ((compute pm nv payout fuel s pid).2 * nvPercent nv i +
          nvFixed nv i)) :: (compute pm nv payout fuel s pid).1,
        round2 ((compute pm nv payout fuel s pid).2 * nvPercent nv i +
          nvFixed nv i)) := by
  simp [compute, hv, hd, hp, ht]

end Tree

/-! Claims about the template engine (`part_005` and `commission-flow-diagram`). -/

/-- Helper: a sum over children is unchanged when an entry for a key that is
not a child is prepended to the amounts record. -/
lemma foldl_sum_lookup_ne (children : List String) (g : String) (v : ℚ)
    (amounts : Memo) (hg : g ∉ children) :
    ∀ acc : ℚ,
      children.foldl (fun sum c => sum + ((List.lookup c ((g, v) :: amounts)).getD 0)) acc =
      children.foldl (fun sum c => sum + ((List.lookup c amounts).getD 0)) acc := by
  induction children with
  | nil => intro acc; rfl
  | cons a t ih =>
    intro acc
    have hga : a ≠ g := fun e => hg (e ▸ List.mem_cons_self a t)
    have hlk : List.lookup a ((g, v) :: amounts) = List.lookup a amounts :=
      Canvas.lookup_cons_ne amounts a g v hga
    simp only [List.foldl_cons, hlk]
    exact ih (fun m => hg (List.mem_cons_of_mem a m)) _

/-- C4: a `kind = "group"` template node displays the sum of its direct
children's resolved amounts, and that display is independent of the group's
own resolved amount entry (the channel through which its own percent/fixed
fields could enter): overwriting the group's own entry in the amounts record
changes nothing as long as the group is not its own child.
`getDisplayAmount` reads no `nodeValues` at all, so the group's own
percent/fixed fields cannot affect the display in any other way. -/
theorem claim_C4_group_display (pn : List (String × Tree.NodeTemplate))
    (dyn : List (String × List String)) (amounts : Memo) (rootId : String)
    (payout : ℚ) (g : String) (t : Tree.NodeTemplate)
    (hg : pn.lookup g = some t) (hkind : t.kind = some "group") :
    Tree.getDisplayAmount pn dyn amounts rootId payout g =
      (t.childIds.getD []).foldl
        (fun sum c => sum + ((List.lookup c amounts).getD 0)) 0 ∧
    (∀ v : ℚ, g ∉ t.childIds.getD [] →
      Tree.getDisplayAmount pn dyn ((g, v) :: amounts) rootId payout g =
        Tree.getDisplayAmount pn dyn amounts rootId payout g) := by
  constructor
  · simp [Tree.getDisplayAmount, hg, hkind]
  · intro v hnc
    simpa [Tree.getDisplayAmount, hg, hkind] using
      foldl_sum_lookup_ne (t.childIds.getD []) g v amounts hnc 0

/-- Schema for the C4 witness: one group node with two children. -/
def c4pn : List (String × Tree.NodeTemplate) :=
  [("grp", ⟨some "group", some ["c1", "c2"], none, none⟩)]

/-- Amounts record for the C4 witness: children resolved at 300.00 and
450.25. -/
def c4amounts : Memo := [("c1", 300), ("c2", 45025/100)]

/-- Witness for C4: the group over children resolved at 300.00 and 450.25
displays 750.25, and overwriting the group's own amount entry changes
nothing. -/
theorem claim_C4_witness :
    Tree.getDisplayAmount c4pn [] c4amounts "root" 1000 "grp" =
      ((some ["c1", "c2"] : Option (List String)).getD []).foldl
        (fun sum c => sum + ((List.lookup c c4amounts).getD 0)) 0 ∧
    Tree.getDisplayAmount c4pn [] (("grp", 999) :: c4amounts) "root" 1000 "grp" =
      Tree.getDisplayAmount c4pn [] c4amounts "root" 1000 "grp" ∧
    Tree.getDisplayAmount c4pn [] c4amounts "root" 1000 "grp" = 75025/100 := by
  have h := claim_C4_group_display c4pn [] c4amounts "root" 1000 "grp"
    ⟨some "group", some ["c1", "c2"], none, none⟩ rfl rfl
  refine ⟨h.1, h.2 999 (by decide), ?_⟩
  rw [h.1]
  have l1 : List.lookup "c1" c4amounts = some 300 := rfl
  have l2 : List.lookup "c2" c4amounts = some (45025/100) := rfl
  simp only [List.foldl, Option.getD_some, l1, l2]
  norm_num

/-- C5 (amended): the percent-base override is hard-coded to the single pair
(`taggerFee` under `taggerCombined`), whose base is always the global root
scalar `developerPayout`; every other (non-dynamic) child — including any
other child of a group node — computes its share against its parent's own
resolved amount, group or not.  There is no walk past group ancestors. -/
theorem claim_C5_percent_base (pm : List (String × String))
    (nv : List (String × Tree.NodeVal)) (payout : ℚ) (fuel : Nat) (s : Memo) :
    (List.lookup "taggerFee" s = none →
      List.lookup "taggerFee" pm = some "taggerCombined" →
      (Tree.compute pm nv payout (fuel + 1) s "taggerFee").2 =
        round2 (payout * Tree.nvPercent nv "taggerFee" +
          Tree.nvFixed nv "taggerFee")) ∧
    (∀ i pid : String, List.lookup i s = none → Tree.isDynamicChild i = false →
      List.lookup i pm = some pid →
      ¬(i = "taggerFee" ∧ pid = "taggerCombined") →
      (Tree.compute pm nv payout (fuel + 1) s i).2 =
        round2 ((Tree.compute pm nv payout fuel s pid).2 * Tree.nvPercent nv i +
          Tree.nvFixed nv i)) := by
  constructor
  · intro hv hp
    rw [Tree.compute_tagger pm nv payout fuel s hv hp]
  · intro i pid hv hd hp ht
    rw [Tree.compute_step_rule pm nv payout fuel s i pid hv hd hp ht]

/-- C9: a sibling reorder is invisible to the amount engine.  `handleDragEnd`
only rewrites `childOrders` (or navigates), and the `nodeAmounts` memo is a
function of `developerPayout`, `nodeValues` and `dynamicChildren` alone (its
`useMemo` dependency list), so the resolved amount of every node is unchanged
by any drag-end event. -/
theorem claim_C9_reorder_invariant (pn : List (String × Tree.NodeTemplate))
    (pm : List (String × String)) (rootId : String) (fuel : Nat)
    (st : Tree.PayoutState) (activeNodeId draggedNodeId overNodeId : String)
    (draggedParentId overParentId : Option String) :
    Tree.nodeAmountsOf pn pm rootId fuel
      (Tree.handleDragEnd st activeNodeId draggedNodeId overNodeId
        draggedParentId overParentId) =
      Tree.nodeAmountsOf pn pm rootId fuel st := by
  unfold Tree.handleDragEnd
  repeat' split
  all_goals rfl

/-! Generic association-record helpers (any value type). -/

lemma lookupAny_cons_self {β : Type} (s : List (String × β)) (k : String) (v : β) :
    List.lookup k ((k, v) :: s) = some v := by
  simp [List.lookup]

lemma lookupAny_cons_ne {β : Type} (s : List (String × β)) (k a : String) (v : β)
    (h : k ≠ a) : List.lookup k ((a, v) :: s) = List.lookup k s := by
  have hb : (k == a) = false := by simpa using h
  simp [List.lookup, hb]

lemma foldl_prepend_lookup_other {β : Type} (v : β) (k : String) :
    ∀ (ids : List String) (nv : List (String × β)), k ∉ ids →
      List.lookup k (ids.foldl (fun nv c => (c, v) :: nv) nv) = List.lookup k nv := by
  intro ids
  induction ids with
  | nil => intro nv _; rfl
  | cons a t ih =>
    intro nv hk
    have hka : k ≠ a := fun e => hk (e ▸ List.mem_cons_self a t)
    have hkt : k ∉ t := fun m => hk (List.mem_cons_of_mem a m)
    simp only [List.foldl_cons]
    rw [ih _ hkt]
    exact lookupAny_cons_ne nv k a v hka

lemma foldl_prepend_lookup_mem {β : Type} (v : β) :
    ∀ (ids : List String) (nv : List (String × β)) (cid : String), cid ∈ ids →
      List.lookup cid (ids.foldl (fun nv c => (c, v) :: nv) nv) = some v := by
  intro ids
  induction ids with
  | nil => intro nv cid h; cases h
  | cons a t ih =>
    intro nv cid hmem
    simp only [List.foldl_cons]
    rcases List.mem_cons.mp hmem with rfl | ht
    · by_cases hct : cid ∈ t
      · exact ih _ cid hct
      · rw [foldl_prepend_lookup_other v cid t _ hct]
        exact lookupAny_cons_self nv cid v
    · exact ih _ cid ht

/-- C7 (amended): for a positive count, the expansion handler replaces the
dynamic-children entry of the expandable node with exactly
`<pending>_lead_1 .. <pending>_lead_count` (any previous synthetic set is
shadowed entirely), records the new total, and seeds every generated child
with `percent = 0` and `fixed = round2 (leadShare ...)` — an equal share of
a *freshly re-derived estimate* of the expandable amount
(`(grandParentAmount * parentPercent + parentFixed) * ownPercent`), which
ignores the node's own fixed value and skips the engine's per-node rounding,
and therefore can differ from the node's freshly computed resolved amount
(see the counterexample). -/
theorem claim_C7_expansion (pn : List (String × Tree.NodeTemplate))
    (pm : List (String × String)) (rootId : String) (fuel : Nat)
    (st : Tree.PayoutState) (pending : String) (count : Nat)
    (hcount : 0 < count) :
    List.lookup pending
      (Tree.handleSubmitProjectLeadsModal pn pm rootId fuel st pending
        count).dynamicChildren =
      some ((List.range count).map
        (fun i => pending ++ "_lead_" ++ toString (i + 1))) ∧
    List.lookup pending
      (Tree.handleSubmitProjectLeadsModal pn pm rootId fuel st pending
        count).projectLeadsTotal = some count ∧
    (∀ cid, cid ∈ (List.range count).map
        (fun i => pending ++ "_lead_" ++ toString (i + 1)) →
      List.lookup cid
        (Tree.handleSubmitProjectLeadsModal pn pm rootId fuel st pending
          count).nodeValues =
        some ⟨0, round2 (Tree.leadShare pn pm rootId fuel st pending count)⟩) := by
  unfold Tree.handleSubmitProjectLeadsModal
  rw [if_pos hcount]
  refine ⟨lookupAny_cons_self _ _ _, lookupAny_cons_self _ _ _, ?_⟩
  intro cid hcid
  exact foldl_prepend_lookup_mem _ _ _ cid hcid

/-! The staged payout schema and the concrete C5/C7 scenario. -/

namespace Tree

/-- The staged schema module's `payoutNodes` (second document of
`src/app/canvas/page.tsx`, lines 97–303) as an association list in
object-literal order.  JS decimal literals are exact rationals here, and
`1.7 / 2.2`, `0.5 / 2.2` are the source's own expressions.  `taggerCombined`
is the schema's only `kind: "group"` node; display-only fields are omitted
and every `id` field equals its record key. -/
def realPayoutNodes : List (String × NodeTemplate) :=
  [("developerPayout", ⟨none, some ["directIcb", "taggerCombined", "eraAgency"], none, none⟩),
   ("directIcb", ⟨none, some ["ecb", "icb"], some 0.022, none⟩),
   ("ecb", ⟨none, none, some (1.7 / 2.2), none⟩),
   ("icb", ⟨none, none, some (0.5 / 2.2), none⟩),
   ("taggerFee", ⟨none, some ["taggerKw", "taggerEra"], some 0.003, none⟩),
   ("taggerCombined", ⟨some "group", some ["taggerFee", "taggerIncentive"], some 0, none⟩),
   ("taggerIncentive", ⟨none, some ["taggerIncentiveSpecialist", "taggerIncentiveEra"], none, some 2000⟩),
   ("taggerKw", ⟨none, some ["projectSpecialist", "newLaunchTeam", "kwHq"], some 0.85, none⟩),
   ("taggerEra", ⟨none, none, some 0.15, none⟩),
   ("taggerIncentiveSpecialist", ⟨none, none, some 0.85, none⟩),
   ("taggerIncentiveEra", ⟨none, none, some 0.15, none⟩),
   ("eraAgency", ⟨none, none, some 0.005, none⟩),
   ("referralFee", ⟨none, some ["referralAgent", "referralEra"], some 0, none⟩),
   ("referralAgent", ⟨none, none, some 0.7, none⟩),
   ("referralEra", ⟨none, none, some 0.3, none⟩),
   ("overrideCommission", ⟨none, some ["overrideManager", "overrideTeam"], some 0, none⟩),
   ("overrideManager", ⟨none, none, some 0.6, none⟩),
   ("overrideTeam", ⟨none, none, some 0.4, none⟩),
   ("projectSpecialist", ⟨none, none, some 0.65, none⟩),
   ("newLaunchTeam", ⟨none, some ["projectDirector", "projectLeads"], some 0.2, none⟩),
   ("kwHq", ⟨none, none, some 0.15, none⟩),
   ("projectDirector", ⟨none, none, some 0.5, none⟩),
   ("projectLeads", ⟨none, some ["shirlyn", "elizabeth", "surya", "benjamin"], some 0.5, none⟩),
   ("shirlyn", ⟨none, none, some 0.25, none⟩),
   ("elizabeth", ⟨none, none, some 0.25, none⟩),
   ("surya", ⟨none, none, some 0.25, none⟩),
   ("benjamin", ⟨none, none, some 0.25, none⟩)]

/-- The module constant `parentMap = buildParentMap()` of the staged schema
(`src/app/canvas/page.tsx` lines 304–317): child ↦ parent, one entry per
`childIds` element in object order.  The root's `developerPayout ↦ null`
entry is modelled as absence of an entry — every consumer treats `null` and
a missing key alike (`!parentId` and `parentMap[nodeId]` guards).
`referralFee` and `overrideCommission` appear in no `childIds` list, so they
also have no entry. -/
def realParentMap : List (String × String) :=
  [("directIcb", "developerPayout"), ("taggerCombined", "developerPayout"),
   ("eraAgency", "developerPayout"),
   ("ecb", "directIcb"), ("icb", "directIcb"),
   ("taggerKw", "taggerFee"), ("taggerEra", "taggerFee"),
   ("taggerFee", "taggerCombined"), ("taggerIncentive", "taggerCombined"),
   ("taggerIncentiveSpecialist", "taggerIncentive"),
   ("taggerIncentiveEra", "taggerIncentive"),
   ("projectSpecialist", "taggerKw"), ("newLaunchTeam", "taggerKw"),
   ("kwHq", "taggerKw"),
   ("referralAgent", "referralFee"), ("referralEra", "referralFee"),
   ("overrideManager", "overrideCommission"), ("overrideTeam", "overrideCommission"),
   ("projectDirector", "newLaunchTeam"), ("projectLeads", "newLaunchTeam"),
   ("shirlyn", "projectLeads"), ("elizabeth", "projectLeads"),
   ("surya", "projectLeads"), ("benjamin", "projectLeads")]

/-- Embeds `buildInitialValues()` (`src/unnamed/part_005` lines 38–47): every
schema node gets `percent = defaultPercent ?? 0` and `fixed = defaultFixed
?? 0`.  Keys are unique, so the prepend order is lookup-equivalent to the JS
record. -/
def buildInitialValues (payoutNodes : List (String × NodeTemplate)) : List (String × NodeVal) :=
  payoutNodes.foldl
    (fun nv pr => (pr.1, ⟨pr.2.defaultPercent.getD 0, pr.2.defaultFixed.getD 0⟩) :: nv) []

/-- Embeds `buildInitialOrders()` (`src/unnamed/part_005` lines 49–57): one
entry per schema node with a nonempty `childIds` list (the `childIds?.length`
truthiness test). -/
def buildInitialOrders (payoutNodes : List (String × NodeTemplate)) : List (String × List String) :=
  payoutNodes.foldl
    (fun os pr =>
      if (pr.2.childIds.getD []).length ≠ 0 then (pr.1, pr.2.childIds.getD []) :: os else os)
    []

/-- Embeds `handleValueChange` (`src/unnamed/part_005` lines 192–204): spread
the previous entry (missing entry behaves as `⟨0, 0⟩` — every reader of
`nodeValues` destructures with defaults 0) and overwrite the named field.
The `Number.isFinite(value) ? value : 0` guard is the identity on ℚ. -/
def handleValueChange (st : PayoutState) (nodeId fieldName : String) (value : ℚ) : PayoutState :=
  let old := (st.nodeValues.lookup nodeId).getD ⟨0, 0⟩
  let updated : NodeVal :=
    if fieldName = "percent" then { old with percent := value } else { old with fixed := value }
  { st with nodeValues := (nodeId, updated) :: st.nodeValues }

end Tree

/-- Initial `PayoutTree` component state at developer payout 1111111:
`nodeValues` and `childOrders` seeded from the staged schema by the build
functions, no dynamic children yet. -/
def c57base : Tree.PayoutState :=
  ⟨1111111, Tree.buildInitialValues Tree.realPayoutNodes,
    Tree.buildInitialOrders Tree.realPayoutNodes, [], []⟩

/-- The `nodeValues` record after `handleValueChange("taggerIncentive",
"percent", 0.5)`: the stored percent of `taggerIncentive` becomes 1/2; its
seeded fixed value 2000 is kept.  (The same record also arrives via the
decoded share/load payload, which feeds `nodeValues` wholesale.) -/
def nv1 : List (String × Tree.NodeVal) :=
  ("taggerIncentive", ⟨1/2, 2000⟩) :: Tree.buildInitialValues Tree.realPayoutNodes

/-- The component state after the single percent edit. -/
def c57st : Tree.PayoutState :=
  Tree.handleValueChange c57base "taggerIncentive" "percent" (1/2)

/-- Helper: one step of the schema-key fold of `nodeAmounts`, driven by an
evaluated `compute` call. -/
lemma foldl_computeT_cons (pm : List (String × String)) (nv : List (String × Tree.NodeVal))
    (payout : ℚ) (fuel : Nat) (k : String) (rest : List String) (s s2 : Memo) (v : ℚ)
    (h : Tree.compute pm nv payout fuel s k = (s2, v)) :
    (k :: rest).foldl (fun s k => (Tree.compute pm nv payout fuel s k).1) s =
      rest.foldl (fun s k => (Tree.compute pm nv payout fuel s k).1) s2 := by
  simp only [List.foldl_cons, h]


/-- Helper: one unfolding of the byte-comparison loop of `String.substrEq`,
which is defined by well-founded recursion and therefore does not reduce
definitionally: when the first compared characters differ the loop returns
false. -/
lemma substrEq_loop_first_ne (s1 s2 : String) (off1 off2 stop1 : String.Pos)
    (hlt : off1.byteIdx < stop1.byteIdx) (hne : (s1.get off1 == s2.get off2) = false) :
    String.substrEq.loop s1 s2 off1 off2 stop1 = false := by
  rw [String.substrEq.loop.eq_def]
  simp [hlt, hne]

/-- Evaluation of `isDynamicChild` on the three schema keys at least as long
as the 18-byte prefix, where `String.startsWith` reaches the comparison loop. -/
lemma isDyn_false_tis : Tree.isDynamicChild "taggerIncentiveSpecialist" = false := by
  show String.substrEq.loop "taggerIncentiveSpecialist" "projectLeads_lead_" ⟨0⟩ ⟨0⟩ ⟨18⟩ = false
  exact substrEq_loop_first_ne _ _ _ _ _ (by decide) (by decide)

/-- Evaluation of `isDynamicChild` at `taggerIncentiveEra` (18 bytes). -/
lemma isDyn_false_tie : Tree.isDynamicChild "taggerIncentiveEra" = false := by
  show String.substrEq.loop "taggerIncentiveEra" "projectLeads_lead_" ⟨0⟩ ⟨0⟩ ⟨18⟩ = false
  exact substrEq_loop_first_ne _ _ _ _ _ (by decide) (by decide)

/-- Evaluation of `isDynamicChild` at `overrideCommission` (18 bytes). -/
lemma isDyn_false_oc : Tree.isDynamicChild "overrideCommission" = false := by
  show String.substrEq.loop "overrideCommission" "projectLeads_lead_" ⟨0⟩ ⟨0⟩ ⟨18⟩ = false
  exact substrEq_loop_first_ne _ _ _ _ _ (by decide) (by decide)

/-- Memo stages of the schema-key pass of `nodeAmounts` on `c57st`: `cm0` is
the root seed, and each later stage prepends the next resolved node in
schema-key order (the `taggerFee` step prepends two entries, the inner
`taggerCombined` recursion and then `taggerFee` itself). -/
def cm0 : Memo := [("developerPayout", 1111111)]

def cm1 : Memo := ("directIcb", 24444.44) :: cm0

def cm2 : Memo := ("ecb", 18888.89) :: cm1

def cm3 : Memo := ("icb", 5555.55) :: cm2

def cm4 : Memo := ("taggerCombined", 0) :: cm3

def cm5 : Memo := ("taggerFee", 3333.33) :: cm4

def cm6 : Memo := ("taggerIncentive", 2000) :: cm5

def cm7 : Memo := ("taggerKw", 2833.33) :: cm6

def cm8 : Memo := ("taggerEra", 500) :: cm7

def cm9 : Memo := ("taggerIncentiveSpecialist", 1700) :: cm8

def cm10 : Memo := ("taggerIncentiveEra", 300) :: cm9

def cm11 : Memo := ("eraAgency", 5555.56) :: cm10

def cm12 : Memo := ("referralFee", 0) :: cm11

def cm13 : Memo := ("referralAgent", 0) :: cm12

def cm14 : Memo := ("referralEra", 0) :: cm13

def cm15 : Memo := ("overrideCommission", 0) :: cm14

def cm16 : Memo := ("overrideManager", 0) :: cm15

def cm17 : Memo := ("overrideTeam", 0) :: cm16

def cm18 : Memo := ("projectSpecialist", 1841.66) :: cm17

def cm19 : Memo := ("newLaunchTeam", 566.67) :: cm18

def cm20 : Memo := ("kwHq", 425) :: cm19

def cm21 : Memo := ("projectDirector", 283.34) :: cm20

def cm22 : Memo := ("projectLeads", 283.34) :: cm21

def cm23 : Memo := ("shirlyn", 70.84) :: cm22

def cm24 : Memo := ("elizabeth", 70.84) :: cm23

def cm25 : Memo := ("surya", 70.84) :: cm24

def cm26 : Memo := ("benjamin", 70.84) :: cm25

/-- Evaluation of the template engine on the staged schema at developer
payout 1111111 over `c57st`: the complete resolved memo, one node per stage
in schema-key order. -/
lemma c57_memo :
    Tree.nodeAmountsOf Tree.realPayoutNodes Tree.realParentMap "developerPayout" 5 c57st = cm26 := by
  have hDP : Tree.compute Tree.realParentMap nv1 1111111 5 cm0 "developerPayout" = (cm0, 1111111) :=
    Tree.compute_memoized Tree.realParentMap nv1 1111111 4 cm0 "developerPayout" 1111111 rfl
  have hDI : Tree.compute Tree.realParentMap nv1 1111111 5 cm0 "directIcb" = (cm1, 24444.44) := by
    have hrec : Tree.compute Tree.realParentMap nv1 1111111 4 cm0 "developerPayout" = (cm0, 1111111) :=
      Tree.compute_memoized Tree.realParentMap nv1 1111111 3 cm0 "developerPayout" 1111111 rfl
    have hstep := Tree.compute_step_rule Tree.realParentMap nv1 1111111 4 cm0 "directIcb" "developerPayout" rfl (by decide) rfl (by decide)
    rw [hrec] at hstep
    simp only [] at hstep
    have hval : round2 ((1111111 : ℚ) * Tree.nvPercent nv1 "directIcb" + Tree.nvFixed nv1 "directIcb") = 24444.44 := by
      have e1 : Tree.nvPercent nv1 "directIcb" = 0.022 := rfl
      have e2 : Tree.nvFixed nv1 "directIcb" = 0 := rfl
      rw [e1, e2]
      exact round2_eval _ _ 2444444 (by norm_num) (by norm_num) (by norm_num)
    rw [hval] at hstep
    exact hstep
  have hECB : Tree.compute Tree.realParentMap nv1 1111111 5 cm1 "ecb" = (cm2, 18888.89) := by
    have hrec : Tree.compute Tree.realParentMap nv1 1111111 4 cm1 "directIcb" = (cm1, 24444.44) :=
      Tree.compute_memoized Tree.realParentMap nv1 1111111 3 cm1 "directIcb" 24444.44 rfl
    have hstep := Tree.compute_step_rule Tree.realParentMap nv1 1111111 4 cm1 "ecb" "directIcb" rfl (by decide) rfl (by decide)
    rw [hrec] at hstep
    simp only [] at hstep
    have hval : round2 ((24444.44 : ℚ) * Tree.nvPercent nv1 "ecb" + Tree.nvFixed nv1 "ecb") = 18888.89 := by
      have e1 : Tree.nvPercent nv1 "ecb" = 1.7 / 2.2 := rfl
      have e2 : Tree.nvFixed nv1 "ecb" = 0 := rfl
      rw [e1, e2]
      exact round2_eval _ _ 1888889 (by norm_num) (by norm_num) (by norm_num)
    rw [hval] at hstep
    exact hstep
  have hICB : Tree.compute Tree.realParentMap nv1 1111111 5 cm2 "icb" = (cm3, 5555.55) := by
    have hrec : Tree.compute Tree.realParentMap nv1 1111111 4 cm2 "directIcb" = (cm2, 24444.44) :=
      Tree.compute_memoized Tree.realParentMap nv1 1111111 3 cm2 "directIcb" 24444.44 rfl
    have hstep := Tree.compute_step_rule Tree.realParentMap nv1 1111111 4 cm2 "icb" "directIcb" rfl (by decide) rfl (by decide)
    rw [hrec] at hstep
    simp only [] at hstep
    have hval : round2 ((24444.44 : ℚ) * Tree.nvPercent nv1 "icb" + Tree.nvFixed nv1 "icb") = 5555.55 := by
      have e1 : Tree.nvPercent nv1 "icb" = 0.5 / 2.2 := rfl
      have e2 : Tree.nvFixed nv1 "icb" = 0 := rfl
      rw [e1, e2]
      exact round2_eval _ _ 555555 (by norm_num) (by norm_num) (by norm_num)
    rw [hval] at hstep
    exact hstep
  have hTCin : Tree.compute Tree.realParentMap nv1 1111111 4 cm3 "taggerCombined" = (cm4, 0) := by
    have hrec : Tree.compute Tree.realParentMap nv1 1111111 3 cm3 "developerPayout" = (cm3, 1111111) :=
      Tree.compute_memoized Tree.realParentMap nv1 1111111 2 cm3 "developerPayout" 1111111 rfl
    have hstep := Tree.compute_step_rule Tree.realParentMap nv1 1111111 3 cm3 "taggerCombined" "developerPayout" rfl (by decide) rfl (by decide)
    rw [hrec] at hstep
    simp only [] at hstep
    have hval : round2 ((1111111 : ℚ) * Tree.nvPercent nv1 "taggerCombined" + Tree.nvFixed nv1 "taggerCombined") = 0 := by
      have e1 : Tree.nvPercent nv1 "taggerCombined" = 0 := rfl
      have e2 : Tree.nvFixed nv1 "taggerCombined" = 0 := rfl
      rw [e1, e2]
      exact round2_eval _ _ 0 (by norm_num) (by norm_num) (by norm_num)
    rw [hval] at hstep
    exact hstep
  have hTF : Tree.compute Tree.realParentMap nv1 1111111 5 cm3 "taggerFee" = (cm5, 3333.33) := by
    have hstep := Tree.compute_tagger Tree.realParentMap nv1 1111111 4 cm3 rfl rfl
    rw [hTCin] at hstep
    simp only [] at hstep
    have hval : round2 ((1111111 : ℚ) * Tree.nvPercent nv1 "taggerFee" + Tree.nvFixed nv1 "taggerFee") = 3333.33 := by
      have e1 : Tree.nvPercent nv1 "taggerFee" = 0.003 := rfl
      have e2 : Tree.nvFixed nv1 "taggerFee" = 0 := rfl
      rw [e1, e2]
      exact round2_eval _ _ 333333 (by norm_num) (by norm_num) (by norm_num)
    rw [hval] at hstep
    exact hstep
  have hTC : Tree.compute Tree.realParentMap nv1 1111111 5 cm5 "taggerCombined" = (cm5, 0) :=
    Tree.compute_memoized Tree.realParentMap nv1 1111111 4 cm5 "taggerCombined" 0 rfl
  have hTI : Tree.compute Tree.realParentMap nv1 1111111 5 cm5 "taggerIncentive" = (cm6, 2000) := by
    have hrec : Tree.compute Tree.realParentMap nv1 1111111 4 cm5 "taggerCombined" = (cm5, 0) :=
      Tree.compute_memoized Tree.realParentMap nv1 1111111 3 cm5 "taggerCombined" 0 rfl
    have hstep := Tree.compute_step_rule Tree.realParentMap nv1 1111111 4 cm5 "taggerIncentive" "taggerCombined" rfl (by decide) rfl (by decide)
    rw [hrec] at hstep
    simp only [] at hstep
    have hval : round2 ((0 : ℚ) * Tree.nvPercent nv1 "taggerIncentive" + Tree.nvFixed nv1 "taggerIncentive") = 2000 := by
      have e1 : Tree.nvPercent nv1 "taggerIncentive" = 1/2 := rfl
      have e2 : Tree.nvFixed nv1 "taggerIncentive" = 2000 := rfl
      rw [e1, e2]
      exact round2_eval _ _ 200000 (by norm_num) (by norm_num) (by norm_num)
    rw [hval] at hstep
    exact hstep
  have hTK : Tree.compute Tree.realParentMap nv1 1111111 5 cm6 "taggerKw" = (cm7, 2833.33) := by
    have hrec : Tree.compute Tree.realParentMap nv1 1111111 4 cm6 "taggerFee" = (cm6, 3333.33) :=
      Tree.compute_memoized Tree.realParentMap nv1 1111111 3 cm6 "taggerFee" 3333.33 rfl
    have hstep := Tree.compute_step_rule Tree.realParentMap nv1 1111111 4 cm6 "taggerKw" "taggerFee" rfl (by decide) rfl (by decide)
    rw [hrec] at hstep
    simp only [] at hstep
    have hval : round2 ((3333.33 : ℚ) * Tree.nvPercent nv1 "taggerKw" + Tree.nvFixed nv1 "taggerKw") = 2833.33 := by
      have e1 : Tree.nvPercent nv1 "taggerKw" = 0.85 := rfl
      have e2 : Tree.nvFixed nv1 "taggerKw" = 0 := rfl
      rw [e1, e2]
      exact round2_eval _ _ 283333 (by norm_num) (by norm_num) (by norm_num)
    rw [hval] at hstep
    exact hstep
  have hTE : Tree.compute Tree.realParentMap nv1 1111111 5 cm7 "taggerEra" = (cm8, 500) := by
    have hrec : Tree.compute Tree.realParentMap nv1 1111111 4 cm7 "taggerFee" = (cm7, 3333.33) :=
      Tree.compute_memoized Tree.realParentMap nv1 1111111 3 cm7 "taggerFee" 3333.33 rfl
    have hstep := Tree.compute_step_rule Tree.realParentMap nv1 1111111 4 cm7 "taggerEra" "taggerFee" rfl (by decide) rfl (by decide)
    rw [hrec] at hstep
    simp only [] at hstep
    have hval : round2 ((3333.33 : ℚ) * Tree.nvPercent nv1 "taggerEra" + Tree.nvFixed nv1 "taggerEra") = 500 := by
      have e1 : Tree.nvPercent nv1 "taggerEra" = 0.15 := rfl
      have e2 : Tree.nvFixed nv1 "taggerEra" = 0 := rfl
      rw [e1, e2]
      exact round2_eval _ _ 50000 (by norm_num) (by norm_num) (by norm_num)
    rw [hval] at hstep
    exact hstep
  have hTIS : Tree.compute Tree.realParentMap nv1 1111111 5 cm8 "taggerIncentiveSpecialist" = (cm9, 1700) := by
    have hrec : Tree.compute Tree.realParentMap nv1 1111111 4 cm8 "taggerIncentive" = (cm8, 2000) :=
      Tree.compute_memoized Tree.realParentMap nv1 1111111 3 cm8 "taggerIncentive" 2000 rfl
    have hstep := Tree.compute_step_rule Tree.realParentMap nv1 1111111 4 cm8 "taggerIncentiveSpecialist" "taggerIncentive" rfl isDyn_false_tis rfl (by decide)
    rw [hrec] at hstep
    simp only [] at hstep
    have hval : round2 ((2000 : ℚ) * Tree.nvPercent nv1 "taggerIncentiveSpecialist" + Tree.nvFixed nv1 "taggerIncentiveSpecialist") = 1700 := by
      have e1 : Tree.nvPercent nv1 "taggerIncentiveSpecialist" = 0.85 := rfl
      have e2 : Tree.nvFixed nv1 "taggerIncentiveSpecialist" = 0 := rfl
      rw [e1, e2]
      exact round2_eval _ _ 170000 (by norm_num) (by norm_num) (by norm_num)
    rw [hval] at hstep
    exact hstep
  have hTIE : Tree.compute Tree.realParentMap nv1 1111111 5 cm9 "taggerIncentiveEra" = (cm10, 300) := by
    have hrec : Tree.compute Tree.realParentMap nv1 1111111 4 cm9 "taggerIncentive" = (cm9, 2000) :=
      Tree.compute_memoized Tree.realParentMap nv1 1111111 3 cm9 "taggerIncentive" 2000 rfl
    have hstep := Tree.compute_step_rule Tree.realParentMap nv1 1111111 4 cm9 "taggerIncentiveEra" "taggerIncentive" rfl isDyn_false_tie rfl (by decide)
    rw [hrec] at hstep
    simp only [] at hstep
    have hval : round2 ((2000 : ℚ) * Tree.nvPercent nv1 "taggerIncentiveEra" + Tree.nvFixed nv1 "taggerIncentiveEra") = 300 := by
      have e1 : Tree.nvPercent nv1 "taggerIncentiveEra" = 0.15 := rfl
      have e2 : Tree.nvFixed nv1 "taggerIncentiveEra" = 0 := rfl
      rw [e1, e2]
      exact round2_eval _ _ 30000 (by norm_num) (by norm_num) (by norm_num)
    rw [hval] at hstep
    exact hstep
  have hEA : Tree.compute Tree.realParentMap nv1 1111111 5 cm10 "eraAgency" = (cm11, 5555.56) := by
    have hrec : Tree.compute Tree.realParentMap nv1 1111111 4 cm10 "developerPayout" = (cm10, 1111111) :=
      Tree.compute_memoized Tree.realParentMap nv1 1111111 3 cm10 "developerPayout" 1111111 rfl
    have hstep := Tree.compute_step_rule Tree.realParentMap nv1 1111111 4 cm10 "eraAgency" "developerPayout" rfl (by decide) rfl (by decide)
    rw [hrec] at hstep
    simp only [] at hstep
    have hval : round2 ((1111111 : ℚ) * Tree.nvPercent nv1 "eraAgency" + Tree.nvFixed nv1 "eraAgency") = 5555.56 := by
      have e1 : Tree.nvPercent nv1 "eraAgency" = 0.005 := rfl
      have e2 : Tree.nvFixed nv1 "eraAgency" = 0 := rfl
      rw [e1, e2]
      exact round2_eval _ _ 555556 (by norm_num) (by norm_num) (by norm_num)
    rw [hval] at hstep
    exact hstep
  have hRF : Tree.compute Tree.realParentMap nv1 1111111 5 cm11 "referralFee" = (cm12, 0) :=
    Tree.compute_noparent Tree.realParentMap nv1 1111111 4 cm11 "referralFee" rfl (by decide) rfl
  have hRA : Tree.compute Tree.realParentMap nv1 1111111 5 cm12 "referralAgent" = (cm13, 0) := by
    have hrec : Tree.compute Tree.realParentMap nv1 1111111 4 cm12 "referralFee" = (cm12, 0) :=
      Tree.compute_memoized Tree.realParentMap nv1 1111111 3 cm12 "referralFee" 0 rfl
    have hstep := Tree.compute_step_rule Tree.realParentMap nv1 1111111 4 cm12 "referralAgent" "referralFee" rfl (by decide) rfl (by decide)
    rw [hrec] at hstep
    simp only [] at hstep
    have hval : round2 ((0 : ℚ) * Tree.nvPercent nv1 "referralAgent" + Tree.nvFixed nv1 "referralAgent") = 0 := by
      have e1 : Tree.nvPercent nv1 "referralAgent" = 0.7 := rfl
      have e2 : Tree.nvFixed nv1 "referralAgent" = 0 := rfl
      rw [e1, e2]
      exact round2_eval _ _ 0 (by norm_num) (by norm_num) (by norm_num)
    rw [hval] at hstep
    exact hstep
  have hRE : Tree.compute Tree.realParentMap nv1 1111111 5 cm13 "referralEra" = (cm14, 0) := by
    have hrec : Tree.compute Tree.realParentMap nv1 1111111 4 cm13 "referralFee" = (cm13, 0) :=
      Tree.compute_memoized Tree.realParentMap nv1 1111111 3 cm13 "referralFee" 0 rfl
    have hstep := Tree.compute_step_rule Tree.realParentMap nv1 1111111 4 cm13 "referralEra" "referralFee" rfl (by decide) rfl (by decide)
    rw [hrec] at hstep
    simp only [] at hstep
    have hval : round2 ((0 : ℚ) * Tree.nvPercent nv1 "referralEra" + Tree.nvFixed nv1 "referralEra") = 0 := by
      have e1 : Tree.nvPercent nv1 "referralEra" = 0.3 := rfl
      have e2 : Tree.nvFixed nv1 "referralEra" = 0 := rfl
      rw [e1, e2]
      exact round2_eval _ _ 0 (by norm_num) (by norm_num) (by norm_num)
    rw [hval] at hstep
    exact hstep
  have hOC : Tree.compute Tree.realParentMap nv1 1111111 5 cm14 "overrideCommission" = (cm15, 0) :=
    Tree.compute_noparent Tree.realParentMap nv1 1111111 4 cm14 "overrideCommission" rfl isDyn_false_oc rfl
  have hOM : Tree.compute Tree.realParentMap nv1 1111111 5 cm15 "overrideManager" = (cm16, 0) := by
    have hrec : Tree.compute Tree.realParentMap nv1 1111111 4 cm15 "overrideCommission" = (cm15, 0) :=
      Tree.compute_memoized Tree.realParentMap nv1 1111111 3 cm15 "overrideCommission" 0 rfl
    have hstep := Tree.compute_step_rule Tree.realParentMap nv1 1111111 4 cm15 "overrideManager" "overrideCommission" rfl (by decide) rfl (by decide)
    rw [hrec] at hstep
    simp only [] at hstep
    have hval : round2 ((0 : ℚ) * Tree.nvPercent nv1 "overrideManager" + Tree.nvFixed nv1 "overrideManager") = 0 := by
      have e1 : Tree.nvPercent nv1 "overrideManager" = 0.6 := rfl
      have e2 : Tree.nvFixed nv1 "overrideManager" = 0 := rfl
      rw [e1, e2]
      exact round2_eval _ _ 0 (by norm_num) (by norm_num) (by norm_num)
    rw [hval] at hstep
    exact hstep
  have hOT : Tree.compute Tree.realParentMap nv1 1111111 5 cm16 "overrideTeam" = (cm17, 0) := by
    have hrec : Tree.compute Tree.realParentMap nv1 1111111 4 cm16 "overrideCommission" = (cm16, 0) :=
      Tree.compute_memoized Tree.realParentMap nv1 1111111 3 cm16 "overrideCommission" 0 rfl
    have hstep := Tree.compute_step_rule Tree.realParentMap nv1 1111111 4 cm16 "overrideTeam" "overrideCommission" rfl (by decide) rfl (by decide)
    rw [hrec] at hstep
    simp only [] at hstep
    have hval : round2 ((0 : ℚ) * Tree.nvPercent nv1 "overrideTeam" + Tree.nvFixed nv1 "overrideTeam") = 0 := by
      have e1 : Tree.nvPercent nv1 "overrideTeam" = 0.4 := rfl
      have e2 : Tree.nvFixed nv1 "overrideTeam" = 0 := rfl
      rw [e1, e2]
      exact round2_eval _ _ 0 (by norm_num) (by norm_num) (by norm_num)
    rw [hval] at hstep
    exact hstep
  have hPS : Tree.compute Tree.realParentMap nv1 1111111 5 cm17 "projectSpecialist" = (cm18, 1841.66) := by
    have hrec : Tree.compute Tree.realParentMap nv1 1111111 4 cm17 "taggerKw" = (cm17, 2833.33) :=
      Tree.compute_memoized Tree.realParentMap nv1 1111111 3 cm17 "taggerKw" 2833.33 rfl
    have hstep := Tree.compute_step_rule Tree.realParentMap nv1 1111111 4 cm17 "projectSpecialist" "taggerKw" rfl (by decide) rfl (by decide)
    rw [hrec] at hstep
    simp only [] at hstep
    have hval : round2 ((2833.33 : ℚ) * Tree.nvPercent nv1 "projectSpecialist" + Tree.nvFixed nv1 "projectSpecialist") = 1841.66 := by
      have e1 : Tree.nvPercent nv1 "projectSpecialist" = 0.65 := rfl
      have e2 : Tree.nvFixed nv1 "projectSpecialist" = 0 := rfl
      rw [e1, e2]
      exact round2_eval _ _ 184166 (by norm_num) (by norm_num) (by norm_num)
    rw [hval] at hstep
    exact hstep
  have hNLT : Tree.compute Tree.realParentMap nv1 1111111 5 cm18 "newLaunchTeam" = (cm19, 566.67) := by
    have hrec : Tree.compute Tree.realParentMap nv1 1111111 4 cm18 "taggerKw" = (cm18, 2833.33) :=
      Tree.compute_memoized Tree.realParentMap nv1 1111111 3 cm18 "taggerKw" 2833.33 rfl
    have hstep := Tree.compute_step_rule Tree.realParentMap nv1 1111111 4 cm18 "newLaunchTeam" "taggerKw" rfl (by decide) rfl (by decide)
    rw [hrec] at hstep
    simp only [] at hstep
    have hval : round2 ((2833.33 : ℚ) * Tree.nvPercent nv1 "newLaunchTeam" + Tree.nvFixed nv1 "newLaunchTeam") = 566.67 := by
      have e1 : Tree.nvPercent nv1 "newLaunchTeam" = 0.2 := rfl
      have e2 : Tree.nvFixed nv1 "newLaunchTeam" = 0 := rfl
      rw [e1, e2]
      exact round2_eval _ _ 56667 (by norm_num) (by norm_num) (by norm_num)
    rw [hval] at hstep
    exact hstep
  have hKW : Tree.compute Tree.realParentMap nv1 1111111 5 cm19 "kwHq" = (cm20, 425) := by
    have hrec : Tree.compute Tree.realParentMap nv1 1111111 4 cm19 "taggerKw" = (cm19, 2833.33) :=
      Tree.compute_memoized Tree.realParentMap nv1 1111111 3 cm19 "taggerKw" 2833.33 rfl
    have hstep := Tree.compute_step_rule Tree.realParentMap nv1 1111111 4 cm19 "kwHq" "taggerKw" rfl (by decide) rfl (by decide)
    rw [hrec] at hstep
    simp only [] at hstep
    have hval : round2 ((2833.33 : ℚ) * Tree.nvPercent nv1 "kwHq" + Tree.nvFixed nv1 "kwHq") = 425 := by
      have e1 : Tree.nvPercent nv1 "kwHq" = 0.15 := rfl
      have e2 : Tree.nvFixed nv1 "kwHq" = 0 := rfl
      rw [e1, e2]
      exact round2_eval _ _ 42500 (by norm_num) (by norm_num) (by norm_num)
    rw [hval] at hstep
    exact hstep
  have hPD : Tree.compute Tree.realParentMap nv1 1111111 5 cm20 "projectDirector" = (cm21, 283.34) := by
    have hrec : Tree.compute Tree.realParentMap nv1 1111111 4 cm20 "newLaunchTeam" = (cm20, 566.67) :=
      Tree.compute_memoized Tree.realParentMap nv1 1111111 3 cm20 "newLaunchTeam" 566.67 rfl
    have hstep := Tree.compute_step_rule Tree.realParentMap nv1 1111111 4 cm20 "projectDirector" "newLaunchTeam" rfl (by decide) rfl (by decide)
    rw [hrec] at hstep
    simp only [] at hstep
    have hval : round2 ((566.67 : ℚ) * Tree.nvPercent nv1 "projectDirector" + Tree.nvFixed nv1 "projectDirector") = 283.34 := by
      have e1 : Tree.nvPercent nv1 "projectDirector" = 0.5 := rfl
      have e2 : Tree.nvFixed nv1 "projectDirector" = 0 := rfl
      rw [e1, e2]
      exact round2_eval _ _ 28334 (by norm_num) (by norm_num) (by norm_num)
    rw [hval] at hstep
    exact hstep
  have hPL : Tree.compute Tree.realParentMap nv1 1111111 5 cm21 "projectLeads" = (cm22, 283.34) := by
    have hrec : Tree.compute Tree.realParentMap nv1 1111111 4 cm21 "newLaunchTeam" = (cm21, 566.67) :=
      Tree.compute_memoized Tree.realParentMap nv1 1111111 3 cm21 "newLaunchTeam" 566.67 rfl
    have hstep := Tree.compute_step_rule Tree.realParentMap nv1 1111111 4 cm21 "projectLeads" "newLaunchTeam" rfl (by decide) rfl (by decide)
    rw [hrec] at hstep
    simp only [] at hstep
    have hval : round2 ((566.67 : ℚ) * Tree.nvPercent nv1 "projectLeads" + Tree.nvFixed nv1 "projectLeads") = 283.34 := by
      have e1 : Tree.nvPercent nv1 "projectLeads" = 0.5 := rfl
      have e2 : Tree.nvFixed nv1 "projectLeads" = 0 := rfl
      rw [e1, e2]
      exact round2_eval _ _ 28334 (by norm_num) (by norm_num) (by norm_num)
    rw [hval] at hstep
    exact hstep
  have hSH : Tree.compute Tree.realParentMap nv1 1111111 5 cm22 "shirlyn" = (cm23, 70.84) := by
    have hrec : Tree.compute Tree.realParentMap nv1 1111111 4 cm22 "projectLeads" = (cm22, 283.34) :=
      Tree.compute_memoized Tree.realParentMap nv1 1111111 3 cm22 "projectLeads" 283.34 rfl
    have hstep := Tree.compute_step_rule Tree.realParentMap nv1 1111111 4 cm22 "shirlyn" "projectLeads" rfl (by decide) rfl (by decide)
    rw [hrec] at hstep
    simp only [] at hstep
    have hval : round2 ((283.34 : ℚ) * Tree.nvPercent nv1 "shirlyn" + Tree.nvFixed nv1 "shirlyn") = 70.84 := by
      have e1 : Tree.nvPercent nv1 "shirlyn" = 0.25 := rfl
      have e2 : Tree.nvFixed nv1 "shirlyn" = 0 := rfl
      rw [e1, e2]
      exact round2_eval _ _ 7084 (by norm_num) (by norm_num) (by norm_num)
    rw [hval] at hstep
    exact hstep
  have hEL : Tree.compute Tree.realParentMap nv1 1111111 5 cm23 "elizabeth" = (cm24, 70.84) := by
    have hrec : Tree.compute Tree.realParentMap nv1 1111111 4 cm23 "projectLeads" = (cm23, 283.34) :=
      Tree.compute_memoized Tree.realParentMap nv1 1111111 3 cm23 "projectLeads" 283.34 rfl
    have hstep := Tree.compute_step_rule Tree.realParentMap nv1 1111111 4 cm23 "elizabeth" "projectLeads" rfl (by decide) rfl (by decide)
    rw [hrec] at hstep
    simp only [] at hstep
    have hval : round2 ((283.34 : ℚ) * Tree.nvPercent nv1 "elizabeth" + Tree.nvFixed nv1 "elizabeth") = 70.84 := by
      have e1 : Tree.nvPercent nv1 "elizabeth" = 0.25 := rfl
      have e2 : Tree.nvFixed nv1 "elizabeth" = 0 := rfl
      rw [e1, e2]
      exact round2_eval _ _ 7084 (by norm_num) (by norm_num) (by norm_num)
    rw [hval] at hstep
    exact hstep
  have hSU : Tree.compute Tree.realParentMap nv1 1111111 5 cm24 "surya" = (cm25, 70.84) := by
    have hrec : Tree.compute Tree.realParentMap nv1 1111111 4 cm24 "projectLeads" = (cm24, 283.34) :=
      Tree.compute_memoized Tree.realParentMap nv1 1111111 3 cm24 "projectLeads" 283.34 rfl
    have hstep := Tree.compute_step_rule Tree.realParentMap nv1 1111111 4 cm24 "surya" "projectLeads" rfl (by decide) rfl (by decide)
    rw [hrec] at hstep
    simp only [] at hstep
    have hval : round2 ((283.34 : ℚ) * Tree.nvPercent nv1 "surya" + Tree.nvFixed nv1 "surya") = 70.84 := by
      have e1 : Tree.nvPercent nv1 "surya" = 0.25 := rfl
      have e2 : Tree.nvFixed nv1 "surya" = 0 := rfl
      rw [e1, e2]
      exact round2_eval _ _ 7084 (by norm_num) (by norm_num) (by norm_num)
    rw [hval] at hstep
    exact hstep
  have hBE : Tree.compute Tree.realParentMap nv1 1111111 5 cm25 "benjamin" = (cm26, 70.84) := by
    have hrec : Tree.compute Tree.realParentMap nv1 1111111 4 cm25 "projectLeads" = (cm25, 283.34) :=
      Tree.compute_memoized Tree.realParentMap nv1 1111111 3 cm25 "projectLeads" 283.34 rfl
    have hstep := Tree.compute_step_rule Tree.realParentMap nv1 1111111 4 cm25 "benjamin" "projectLeads" rfl (by decide) rfl (by decide)
    rw [hrec] at hstep
    simp only [] at hstep
    have hval : round2 ((283.34 : ℚ) * Tree.nvPercent nv1 "benjamin" + Tree.nvFixed nv1 "benjamin") = 70.84 := by
      have e1 : Tree.nvPercent nv1 "benjamin" = 0.25 := rfl
      have e2 : Tree.nvFixed nv1 "benjamin" = 0 := rfl
      rw [e1, e2]
      exact round2_eval _ _ 7084 (by norm_num) (by norm_num) (by norm_num)
    rw [hval] at hstep
    exact hstep
  have hkeys : Tree.realPayoutNodes.map Prod.fst =
    ["developerPayout",
     "directIcb",
     "ecb",
     "icb",
     "taggerFee",
     "taggerCombined",
     "taggerIncentive",
     "taggerKw",
     "taggerEra",
     "taggerIncentiveSpecialist",
     "taggerIncentiveEra",
     "eraAgency",
     "referralFee",
     "referralAgent",
     "referralEra",
     "overrideCommission",
     "overrideManager",
     "overrideTeam",
     "projectSpecialist",
     "newLaunchTeam",
     "kwHq",
     "projectDirector",
     "projectLeads",
     "shirlyn",
     "elizabeth",
     "surya",
     "benjamin"] := rfl
  have hNV : c57st.nodeValues = nv1 := rfl
  have hP : c57st.developerPayout = (1111111 : ℚ) := rfl
  have hDyn : c57st.dynamicChildren = ([] : List (String × List String)) := rfl
  have hcm0 : ([("developerPayout", (1111111 : ℚ))] : Memo) = cm0 := rfl
  simp only [Tree.nodeAmountsOf, Tree.nodeAmounts, hNV, hP, hDyn, hkeys]
  rw [hcm0]
  rw [foldl_computeT_cons _ _ _ _ _ _ _ _ _ hDP]
  rw [foldl_computeT_cons _ _ _ _ _ _ _ _ _ hDI]
  rw [foldl_computeT_cons _ _ _ _ _ _ _ _ _ hECB]
  rw [foldl_computeT_cons _ _ _ _ _ _ _ _ _ hICB]
  rw [foldl_computeT_cons _ _ _ _ _ _ _ _ _ hTF]
  rw [foldl_computeT_cons _ _ _ _ _ _ _ _ _ hTC]
  rw [foldl_computeT_cons _ _ _ _ _ _ _ _ _ hTI]
  rw [foldl_computeT_cons _ _ _ _ _ _ _ _ _ hTK]
  rw [foldl_computeT_cons _ _ _ _ _ _ _ _ _ hTE]
  rw [foldl_computeT_cons _ _ _ _ _ _ _ _ _ hTIS]
  rw [foldl_computeT_cons _ _ _ _ _ _ _ _ _ hTIE]
  rw [foldl_computeT_cons _ _ _ _ _ _ _ _ _ hEA]
  rw [foldl_computeT_cons _ _ _ _ _ _ _ _ _ hRF]
  rw [foldl_computeT_cons _ _ _ _ _ _ _ _ _ hRA]
  rw [foldl_computeT_cons _ _ _ _ _ _ _ _ _ hRE]
  rw [foldl_computeT_cons _ _ _ _ _ _ _ _ _ hOC]
  rw [foldl_computeT_cons _ _ _ _ _ _ _ _ _ hOM]
  rw [foldl_computeT_cons _ _ _ _ _ _ _ _ _ hOT]
  rw [foldl_computeT_cons _ _ _ _ _ _ _ _ _ hPS]
  rw [foldl_computeT_cons _ _ _ _ _ _ _ _ _ hNLT]
  rw [foldl_computeT_cons _ _ _ _ _ _ _ _ _ hKW]
  rw [foldl_computeT_cons _ _ _ _ _ _ _ _ _ hPD]
  rw [foldl_computeT_cons _ _ _ _ _ _ _ _ _ hPL]
  rw [foldl_computeT_cons _ _ _ _ _ _ _ _ _ hSH]
  rw [foldl_computeT_cons _ _ _ _ _ _ _ _ _ hEL]
  rw [foldl_computeT_cons _ _ _ _ _ _ _ _ _ hSU]
  rw [foldl_computeT_cons _ _ _ _ _ _ _ _ _ hBE]
  simp only [List.foldl_nil]

/-- Witness for the amended C5 on the staged schema: under `realParentMap`,
`taggerFee` (whose nominal parent is the group `taggerCombined`) computes its
share from the payout scalar, while `taggerIncentive` — the group's other
child — computes from the group's own resolved amount; at fuel 0 the inner
recursion returns 0, so its concrete value is round2(0 · 1/2 + 2000) =
2000, and `taggerFee`'s at payout 1000 is round2(1000 · 0.003) = 3. -/
theorem claim_C5_witness :
    ((Tree.compute Tree.realParentMap nv1 1000 (0 + 1) [] "taggerFee").2 =
      round2 (1000 * Tree.nvPercent nv1 "taggerFee" + Tree.nvFixed nv1 "taggerFee") ∧
    (Tree.compute Tree.realParentMap nv1 1000 (0 + 1) [] "taggerIncentive").2 =
      round2 ((Tree.compute Tree.realParentMap nv1 1000 0 [] "taggerCombined").2 *
        Tree.nvPercent nv1 "taggerIncentive" + Tree.nvFixed nv1 "taggerIncentive")) ∧
    round2 (1000 * Tree.nvPercent nv1 "taggerFee" + Tree.nvFixed nv1 "taggerFee") = 3 ∧
    round2 ((Tree.compute Tree.realParentMap nv1 1000 0 [] "taggerCombined").2 *
      Tree.nvPercent nv1 "taggerIncentive" + Tree.nvFixed nv1 "taggerIncentive") = 2000 := by
  have h := claim_C5_percent_base Tree.realParentMap nv1 1000 0 []
  refine ⟨⟨h.1 rfl rfl, h.2 "taggerIncentive" "taggerCombined" rfl rfl rfl (by decide)⟩, ?_, ?_⟩
  · have e1 : Tree.nvPercent nv1 "taggerFee" = 0.003 := rfl
    have e2 : Tree.nvFixed nv1 "taggerFee" = 0 := rfl
    rw [e1, e2]
    exact round2_eval _ _ 300 (by norm_num) (by norm_num) (by norm_num)
  · have h0 : (Tree.compute Tree.realParentMap nv1 1000 0 [] "taggerCombined").2 = 0 := rfl
    have e1 : Tree.nvPercent nv1 "taggerIncentive" = 1/2 := rfl
    have e2 : Tree.nvFixed nv1 "taggerIncentive" = 2000 := rfl
    rw [h0, e1, e2]
    exact round2_eval _ _ 200000 (by norm_num) (by norm_num) (by norm_num)

/-- Refutation data for the original C5 sentence on the staged schema:
`taggerIncentive`'s nominal parent `taggerCombined` is the schema's only
group node and is itself a child of the non-group root, so the original
claim demands that `taggerIncentive`'s percent share be computed against the
root scalar — round2(1111111 · 1/2 + 2000) = 557555.5 — but on `c57st`
(the state after the user stores percent 1/2 on `taggerIncentive` via
`handleValueChange`) the engine records 2000, computed against the group's
own resolved amount 0. -/
theorem claim_C5_counterexample :
    (List.lookup "taggerCombined" Tree.realPayoutNodes).bind Tree.NodeTemplate.kind =
      some "group" ∧
    List.lookup "taggerIncentive" Tree.realParentMap = some "taggerCombined" ∧
    List.lookup "taggerCombined" Tree.realParentMap = some "developerPayout" ∧
    (List.lookup "developerPayout" Tree.realPayoutNodes).bind Tree.NodeTemplate.kind = none ∧
    Tree.nvPercent c57st.nodeValues "taggerIncentive" = 1/2 ∧
    List.lookup "developerPayout"
      (Tree.nodeAmountsOf Tree.realPayoutNodes Tree.realParentMap "developerPayout" 5 c57st) =
      some 1111111 ∧
    List.lookup "taggerCombined"
      (Tree.nodeAmountsOf Tree.realPayoutNodes Tree.realParentMap "developerPayout" 5 c57st) =
      some 0 ∧
    List.lookup "taggerIncentive"
      (Tree.nodeAmountsOf Tree.realPayoutNodes Tree.realParentMap "developerPayout" 5 c57st) =
      some 2000 ∧
    round2 (1111111 * Tree.nvPercent c57st.nodeValues "taggerIncentive" +
      Tree.nvFixed c57st.nodeValues "taggerIncentive") = 557555.5 ∧
    (2000 : ℚ) ≠ 557555.5 := by
  refine ⟨rfl, rfl, rfl, rfl, rfl, ?_, ?_, ?_, ?_, by norm_num⟩
  · rw [c57_memo]; rfl
  · rw [c57_memo]; rfl
  · rw [c57_memo]; rfl
  · have e1 : Tree.nvPercent c57st.nodeValues "taggerIncentive" = 1/2 := rfl
    have e2 : Tree.nvFixed c57st.nodeValues "taggerIncentive" = 2000 := rfl
    rw [e1, e2]
    exact round2_eval _ _ 55755550 (by norm_num) (by norm_num) (by norm_num)

/-- Evaluation of the expansion handler's re-derived share on `c57st`:
`leadParentAmount` for `projectLeads` is the unrounded
2833.33 · 0.2 + 0 = 566.666 (grandparent `taggerKw` read from the memo), and
the equal share at count 1 is 566.666 · 0.5 / 1 = 283.333. -/
lemma c57_leadShare :
    Tree.leadShare Tree.realPayoutNodes Tree.realParentMap "developerPayout" 5 c57st
      "projectLeads" 1 = 283.333 := by
  have hpa : Tree.leadParentAmount Tree.realPayoutNodes Tree.realParentMap "developerPayout" 5
      c57st "projectLeads" = 566.666 := by
    have e1 : List.lookup "projectLeads" Tree.realParentMap = some "newLaunchTeam" := rfl
    have e2 : List.lookup "newLaunchTeam" Tree.realParentMap = some "taggerKw" := rfl
    have e3 : List.lookup "taggerKw" cm26 = some 2833.33 := rfl
    have e4 : Tree.nvPercent c57st.nodeValues "newLaunchTeam" = 0.2 := rfl
    have e5 : Tree.nvFixed c57st.nodeValues "newLaunchTeam" = 0 := rfl
    simp only [Tree.leadParentAmount, c57_memo, e1, e2, e3, Option.getD_some, e4, e5]
    norm_num
  have e6 : ((List.lookup "projectLeads" c57st.nodeValues).map Tree.NodeVal.percent).getD
      (1/2) = 0.5 := rfl
  simp only [Tree.leadShare, hpa, e6]
  norm_num

/-- Refutation data for the original C7 share formula on the staged schema at
payout 1111111 (state `c57st`): the freshly resolved amount of
`projectLeads` is 283.34, so the original claim demands the per-lead fixed
value round2(283.34 / 1) = 283.34 at count 1, but the handler seeds
`projectLeads_lead_1` with fixed 283.33 — `round2` of its re-derived
unrounded share 283.333. -/
theorem claim_C7_counterexample :
    List.lookup "projectLeads"
      (Tree.nodeAmountsOf Tree.realPayoutNodes Tree.realParentMap "developerPayout" 5 c57st) =
      some 283.34 ∧
    round2 ((283.34 : ℚ) / 1) = 283.34 ∧
    List.lookup "projectLeads_lead_1"
      ((Tree.handleSubmitProjectLeadsModal Tree.realPayoutNodes Tree.realParentMap
        "developerPayout" 5 c57st "projectLeads" 1).nodeValues) = some ⟨0, 283.33⟩ ∧
    (283.33 : ℚ) ≠ 283.34 := by
  refine ⟨?_, ?_, ?_, by norm_num⟩
  · rw [c57_memo]; rfl
  · have e : (283.34 : ℚ) / 1 = 283.34 := by norm_num
    rw [e]
    exact round2_eval _ _ 28334 (by norm_num) (by norm_num) (by norm_num)
  · have hr : round2 (Tree.leadShare Tree.realPayoutNodes Tree.realParentMap "developerPayout"
        5 c57st "projectLeads" 1) = 283.33 := by
      rw [c57_leadShare]
      exact round2_eval _ _ 28333 (by norm_num) (by norm_num) (by norm_num)
    have hnv : (Tree.handleSubmitProjectLeadsModal Tree.realPayoutNodes Tree.realParentMap
        "developerPayout" 5 c57st "projectLeads" 1).nodeValues =
        ("projectLeads_lead_1", (⟨0, round2 (Tree.leadShare Tree.realPayoutNodes
          Tree.realParentMap "developerPayout" 5 c57st "projectLeads" 1)⟩ : Tree.NodeVal)) ::
          c57st.nodeValues := rfl
    rw [hnv, hr]
    exact lookupAny_cons_self _ _ _

/-- Witness instantiating C7's amended expansion theorem on the staged
schema: expanding `projectLeads` on `c57st` with count 1 records total 1,
creates exactly `projectLeads_lead_1`, and seeds it with `round2` of the
re-derived equal share, whose concrete unrounded value is 283.333. -/
theorem claim_C7_witness :
    List.lookup "projectLeads"
      (Tree.handleSubmitProjectLeadsModal Tree.realPayoutNodes Tree.realParentMap
        "developerPayout" 5 c57st "projectLeads" 1).dynamicChildren =
      some ((List.range 1).map (fun i => "projectLeads" ++ "_lead_" ++ toString (i + 1))) ∧
    List.lookup "projectLeads"
      (Tree.handleSubmitProjectLeadsModal Tree.realPayoutNodes Tree.realParentMap
        "developerPayout" 5 c57st "projectLeads" 1).projectLeadsTotal = some 1 ∧
    List.lookup "projectLeads_lead_1"
      (Tree.handleSubmitProjectLeadsModal Tree.realPayoutNodes Tree.realParentMap
        "developerPayout" 5 c57st "projectLeads" 1).nodeValues =
      some ⟨0, round2 (Tree.leadShare Tree.realPayoutNodes Tree.realParentMap "developerPayout"
        5 c57st "projectLeads" 1)⟩ ∧
    Tree.leadShare Tree.realPayoutNodes Tree.realParentMap "developerPayout" 5 c57st
      "projectLeads" 1 = 283.333 := by
  have h := claim_C7_expansion Tree.realPayoutNodes Tree.realParentMap "developerPayout" 5 c57st
    "projectLeads" 1 (by norm_num)
  refine ⟨h.1, h.2.1, h.2.2 "projectLeads_lead_1" ?_, c57_leadShare⟩
  simp only [List.mem_map, List.mem_range]
  exact ⟨0, by norm_num, rfl⟩
